import Mathlib


/-!
Verification development for the EU-Legal-Benchmark run orchestrator.

This file gives a shallow embedding, in Lean 4, of the components of the
benchmark runner that the verified properties talk about:

* the disk cache and the two model-call executors
  (`src/cache.py`, `src/runner/bootstrap.py`, `run.py`),
* the retry/backoff policy (`src/retry.py`),
* the per-minute rate limiter (`src/runner/rate_limiter.py`),
* the judge scoring pipeline (`src/judge/judge.py`, `src/runner/judging.py`,
  `src/runner/helpers.py`, `src/runner/row_builders.py`),
* task planning and output-row ordering
  (`src/runner/generation.py`, `src/runner/judging.py`),
* the backfill overlay and merge reconciler
  (`src/runner/reconcile.py`, `scripts/merge_backfill.py`,
  `src/runner/output.py`).

Conventions of the embedding:

* Python `float` arithmetic is embedded as exact rational arithmetic (`ℚ`);
  every numeric property below is about the ideal real-valued computation
  that the Python code spells out.
* Python dicts are embedded as insertion-ordered association lists with
  overwrite-on-repeated-key semantics (`pyDictInsert` below), matching
  CPython's guaranteed dict behaviour.
* Python sets are embedded as duplicate-free lists built by `pySetInsert`.
* `sorted` on tuples of strings is embedded as an insertion sort under the
  lexicographic code-point order, which is Python's order on `str` tuples.
* Fallible Python code (code that can raise) is embedded with `Except`,
  where the error side carries the Python exception kind.
* Concurrency is embedded by quantifying over the completion order of
  worker-pool tasks (an arbitrary permutation of the submitted tasks);
  mutex-serialized state updates are embedded as folds over the
  serialization order.
-/

/-! ## Python string primitives

Python compares strings by Unicode code point, lexicographically; this is
`pyCmpChars` on the underlying character lists.  `str.strip()`-emptiness,
`str.lower()` and the `[a-z0-9]` character class used by the judge's key
normalization are embedded below (ASCII range, which is what the
benchmark's identifiers use).
-/

/-- Three-way code-point comparison of character lists (Python `str` order). -/
def pyCmpChars : List Char → List Char → Ordering
  | [], [] => .eq
  | [], _ :: _ => .lt
  | _ :: _, [] => .gt
  | a :: as, b :: bs =>
    if a.toNat < b.toNat then .lt
    else if b.toNat < a.toNat then .gt
    else pyCmpChars as bs


/-- Python `<` on strings. -/
def pyStrLt (a b : String) : Bool := pyCmpChars a.data b.data == .lt


/-- Python whitespace characters relevant to `str.strip()` (ASCII range). -/
def pyIsSpace (c : Char) : Bool :=
  c == ' ' || c == '\t' || c == '\n' || c == '\x0d' || c == '\x0b' || c == '\x0c'


/-- `not s.strip()` in Python: the string contains no non-whitespace character. -/
def pyStripEmpty (s : String) : Bool := s.data.all pyIsSpace


/-- ASCII lower-casing, as applied by `str.lower()` to the benchmark's
ASCII identifiers. -/
def pyLowerChar (c : Char) : Char :=
  if 'A' ≤ c && c ≤ 'Z' then Char.ofNat (c.toNat + 32) else c


/-- Membership in the `[a-z0-9]` regex class. -/
def isLowerAlnum (c : Char) : Bool :=
  ('a' ≤ c && c ≤ 'z') || ('0' ≤ c && c ≤ '9')


/-! ## Python dict and set primitives -/

/-- `d[k] = v` on a Python dict embedded as an association list: an existing
key keeps its position and gets the new value, a new key is appended. -/
def pyDictInsert {κ α : Type} [DecidableEq κ] (k : κ) (v : α) :
    List (κ × α) → List (κ × α)
  | [] => [(k, v)]
  | (k', v') :: rest =>
    if k = k' then (k, v) :: rest else (k', v') :: pyDictInsert k v rest


/-- `k in d`. -/
def pyDictMem {κ α : Type} [DecidableEq κ] (k : κ) (d : List (κ × α)) : Bool :=
  d.any (fun p => decide (p.1 = k))


/-- `d.get(k)` on a dict built by `pyDictInsert` (keys are unique, so the
first match is the binding). -/
def pyDictGet {κ α : Type} [DecidableEq κ] (d : List (κ × α)) (k : κ) : Option α :=
  (d.find? (fun p => decide (p.1 = k))).map (fun p => p.2)


/-- `{f(k): g(v) for k, v in d.items()}`: rebuild in iteration order with
overwrite on collision of transformed keys. -/
def pyDictComprehension {κ α β : Type} [DecidableEq κ] (f : κ → κ) (g : α → β)
    (d : List (κ × α)) : List (κ × β) :=
  d.foldl (fun acc p => pyDictInsert (f p.1) (g p.2) acc) []


/-- `s.add(k)` on a Python set embedded as a duplicate-free list. -/
def pySetInsert {α : Type} [DecidableEq α] (k : α) (s : List α) : List α :=
  if k ∈ s then s else s ++ [k]


/-! ## Sorting

`sorted(...)` is embedded as an insertion sort by a boolean `le` relation;
for a total and transitive `le` this produces a `Pairwise le` list that is a
permutation of the input, which pins down `sorted`'s output on
duplicate-free key lists.
-/

/-- Insert into a `le`-sorted list, keeping existing elements first on ties
(stability, as Python's sort guarantees). -/
def insertLe {α : Type} (le : α → α → Bool) (a : α) : List α → List α
  | [] => [a]
  | b :: bs => if le b a then b :: insertLe le a bs else a :: b :: bs


/-- Insertion sort by a boolean `le` relation. -/
def sortLe {α : Type} (le : α → α → Bool) : List α → List α
  | [] => []
  | a :: as => insertLe le a (sortLe le as)


/-! ## Retry policy (`src/retry.py`)

A raised Python exception is embedded as the record of everything
`src/retry.py` inspects on it: the `status_code`/`code` attributes, the
attached response's status code, the `status` attribute, the message
(`str(exc)`), the `retry_after` attribute and the response headers.
-/

/-- The attributes of a raised exception that the retry policy reads. -/
structure PyExc where
  status_code : Option Int := none
  code : Option Int := none
  response_status_code : Option Int := none
  status : Option String := none
  msg : String := ""
  retry_after_attr : Option String := none
  headers : Option (List (String × String)) := none
  deriving DecidableEq


/-- `TRANSIENT_MARKERS` from src/retry.py, verbatim. -/
def TRANSIENT_MARKERS : List String :=
  ["rate limit", "429", "500", "502", "503", "504", "timeout", "timed out",
   "temporarily unavailable", "connection", "connecttimeout", "connecterror",
   "remoteprotocolerror", "disconnected", "unavailable", "deadline_exceeded",
   "ratelimiterror", "service_tier_capacity_exceeded", "capacity exceeded",
   "overloaded", "empty response text", "service unavailable",
   "internal server error"]


/-- Python `needle in hay` substring test on character lists. -/
def containsSub (needle hay : List Char) : Bool :=
  hay.tails.any (fun t => needle.isPrefixOf t)


/-- `_extract_status_code`: the `status_code` attribute, then `code`, then the
attached response's `status_code`. -/
def extract_status_code (e : PyExc) : Option Int :=
  match e.status_code with
  | some v => some v
  | none =>
    match e.code with
    | some v => some v
    | none => e.response_status_code


/-- `_extract_status_text`: the lower-cased `status` attribute, else `""`. -/
def extract_status_text (e : PyExc) : String :=
  match e.status with
  | none => ""
  | some s => ⟨s.data.map pyLowerChar⟩


/-- `is_transient_error` from src/retry.py. -/
def is_transient_error (e : PyExc) : Bool :=
  match extract_status_code e with
  | some c =>
    if c = 429 ∨ c = 500 ∨ c = 502 ∨ c = 503 ∨ c = 504 then true
    else is_transient_error_rest e
  | none => is_transient_error_rest e
where
  is_transient_error_rest (e : PyExc) : Bool :=
    let st := extract_status_text e
    if st = "unavailable" ∨ st = "deadline_exceeded" ∨ st = "service_unavailable"
        ∨ st = "too_many_requests" then true
    else
      TRANSIENT_MARKERS.any (fun m => containsSub m.data (e.msg.data.map pyLowerChar))


/-- Value of a digit run, most significant first. -/
def digitsToNat (ds : List Char) : ℕ :=
  ds.foldl (fun n c => 10 * n + (c.toNat - 48)) 0


/-- Split off the longest leading digit run. -/
def takeDigits (l : List Char) : List Char × List Char :=
  (l.takeWhile Char.isDigit, l.dropWhile Char.isDigit)


/-- An unsigned decimal numeral `[0-9]+(\.[0-9]+)?` (or with one side of the
point empty, as Python's `float` accepts), consumed in full. -/
def parseUnsignedFloat (l : List Char) : Option ℚ :=
  let ip := (takeDigits l).1
  match (takeDigits l).2 with
  | [] => if ip = [] then none else some (digitsToNat ip)
  | '.' :: rest2 =>
    let fp := (takeDigits rest2).1
    if (takeDigits rest2).2 = [] ∧ (ip ≠ [] ∨ fp ≠ []) then
      some ((digitsToNat ip : ℚ) + digitsToNat fp / 10 ^ fp.length)
    else none
  | _ => none


/-- `float(str(value).strip())` on the decimal numerals the retry hints use
(exponent and infinity forms are out of scope). `none` embeds a raised
`ValueError`. -/
def parsePyFloat (s : String) : Option ℚ :=
  let l := s.data.dropWhile pyIsSpace
  let l := (l.reverse.dropWhile pyIsSpace).reverse
  match l with
  | '-' :: rest => (parseUnsignedFloat rest).map Neg.neg
  | '+' :: rest => parseUnsignedFloat rest
  | _ => parseUnsignedFloat l


/-- `_parse_retry_after_value`: parse as float and reject negative values. -/
def parse_retry_after_value (v : Option String) : Option ℚ :=
  match v with
  | none => none
  | some s =>
    match parsePyFloat s with
    | none => none
    | some q => if q < 0 then none else some q


/-- The `retry-after` header probe of `_extract_retry_after_seconds`: the
three capitalizations in source order, on a truthy (non-empty) header map. -/
def headerRetryAfter (headers : Option (List (String × String))) : Option ℚ :=
  match headers with
  | none => none
  | some hs =>
    if hs = [] then none
    else
      match parse_retry_after_value (pyDictGet hs "retry-after") with
      | some q => some q
      | none =>
        match parse_retry_after_value (pyDictGet hs "Retry-After") with
        | some q => some q
        | none => parse_retry_after_value (pyDictGet hs "RETRY-AFTER")


/-- `[-_ ]?after` with the regex's backtracking resolved (the separator class
and `a` are disjoint, so at most one alternative applies). Returns the
remainder after `after`. -/
def afterPart : List Char → Option (List Char)
  | [] => none
  | c :: tl =>
    if c = '-' ∨ c = '_' ∨ c = ' ' then
      if "after".data.isPrefixOf tl then some (tl.drop 5) else none
    else if "after".data.isPrefixOf (c :: tl) then some ((c :: tl).drop 5) else none


/-- One anchored attempt of `retry[-_ ]?after[^0-9]*([0-9]+(?:\.[0-9]+)?)` on
an already lower-cased character list. -/
def retryAfterMatchAt (l : List Char) : Option ℚ :=
  if "retry".data.isPrefixOf l then
    match afterPart (l.drop 5) with
    | none => none
    | some rest =>
      let rest2 := rest.dropWhile (fun c => !c.isDigit)
      let ds := (takeDigits rest2).1
      if ds = [] then none
      else
        match (takeDigits rest2).2 with
        | '.' :: r4 =>
          let fs := (takeDigits r4).1
          if fs = [] then some (digitsToNat ds)
          else some ((digitsToNat ds : ℚ) + digitsToNat fs / 10 ^ fs.length)
        | _ => some (digitsToNat ds)
  else none


/-- `re.search` of the retry-after pattern: leftmost matching start wins
(the pattern is case-insensitive, embedded by lower-casing the haystack). -/
def searchRetryAfter : List Char → Option ℚ
  | [] => none
  | c :: tl =>
    match retryAfterMatchAt (c :: tl) with
    | some q => some q
    | none => searchRetryAfter tl


/-- `_extract_retry_after_seconds`: the `retry_after` attribute, then the
response headers, then the regex extraction from the message. -/
def extract_retry_after_seconds (e : PyExc) : Option ℚ :=
  match parse_retry_after_value e.retry_after_attr with
  | some q => some q
  | none =>
    match headerRetryAfter e.headers with
    | some q => some q
    | none => searchRetryAfter (e.msg.data.map pyLowerChar)


/-- `RetryConfig` from src/config.py. -/
structure RetryConfig where
  max_attempts : ℕ := 5
  base_delay_s : ℚ := 1
  max_delay_s : ℚ := 30
  deriving DecidableEq


/-- Observable events of one `with_retries` execution: the `before_attempt`
hook, the invocation of `fn`, and a backoff sleep of a given duration. -/
inductive RetryEv where
  | before (attempt : ℕ)
  | call (attempt : ℕ)
  | sleep (delay_s : ℚ)
  deriving DecidableEq


/-- Behaviour of one `fn()` invocation. -/
inductive CallOutcome (α : Type) where
  | ok (v : α)
  | raise (e : PyExc)


/-- How a `with_retries` execution ends. `assertionFailed` embeds the
`assert last_exc is not None` that fires when the attempt loop never ran
(`max_attempts < 1`). -/
inductive RetryResult (α : Type) where
  | ok (v : α)
  | raised (e : PyExc)
  | assertionFailed


/-- The backoff delay slept after a transient failure with attempts left:
the capped retry-after hint when one exists, else the capped exponential
plus the sampled jitter (the caller supplies the value that
`random.uniform(0.0, min(0.5, base_delay_s))` returned). -/
def backoffDelay (retry : RetryConfig) (attempt : ℕ) (e : PyExc) (jitter : ℚ) : ℚ :=
  match extract_retry_after_seconds e with
  | some ra => min retry.max_delay_s ra
  | none => min retry.max_delay_s (retry.base_delay_s * 2 ^ (attempt - 1)) + jitter


/-- The attempt loop of `with_retries`, with `fuel` the number of attempts
still allowed including the current one (so `fuel = 1` is the last attempt,
Python's `attempt >= retry.max_attempts`). `outcomes n` is what the `n`-th
`fn()` call does; `jitter n` is the jitter sampled after the `n`-th call. -/
def withRetriesGo {α : Type} (outcomes : ℕ → CallOutcome α) (jitter : ℕ → ℚ)
    (retry : RetryConfig) : ℕ → ℕ → List RetryEv × RetryResult α
  | _, 0 => ([], .assertionFailed)
  | attempt, fuel + 1 =>
    let pre := [RetryEv.before attempt, RetryEv.call attempt]
    match outcomes attempt with
    | .ok v => (pre, .ok v)
    | .raise e =>
      if fuel = 0 ∨ is_transient_error e = false then (pre, .raised e)
      else
        let d := backoffDelay retry attempt e (jitter attempt)
        let rec_result := withRetriesGo outcomes jitter retry (attempt + 1) fuel
        (pre ++ RetryEv.sleep d :: rec_result.1, rec_result.2)


/-- `with_retries` from src/retry.py as a trace semantics: the sequence of
hook calls, `fn()` calls and sleeps, plus the final result. -/
def with_retries {α : Type} (outcomes : ℕ → CallOutcome α) (jitter : ℕ → ℚ)
    (retry : RetryConfig) : List RetryEv × RetryResult α :=
  withRetriesGo outcomes jitter retry 1 retry.max_attempts


/-! ## Disk cache (`src/cache.py`) and model-call executors

`DiskCache` in src/cache.py defines exactly three operations: `make_key`,
`get` and `set` — there is no `delete` method, although
`src/runner/bootstrap.py` calls one and `tests/core/test_cache.py` tests
one.  The embedding records the method table explicitly so that the
attribute lookup performed by `cache.delete(key)` can be resolved the way
Python resolves it (an `AttributeError` for a missing attribute).

The SHA-256 key derivation (`make_key` over `_cache_key_payload`) is kept
abstract: the executors below take the already-computed hex key, since
every property of interest is about what happens at a given key.
-/

/-- A decoded cache payload / provider payload, restricted to the fields the
executors construct and inspect (`provider`, `model`, `text`, `request_id`;
token usage, latency and the raw response ride along unchanged and are not
modelled).  `text = none` embeds both a missing `"text"` field and an
explicit JSON `null`. -/
structure CachePayload where
  provider : String := ""
  model : String := ""
  text : Option String := none
  request_id : Option String := none
  deriving DecidableEq


/-- The on-disk state of a `DiskCache`: the enabled flag and the decoded
entry per key. -/
structure DiskCache where
  enabled : Bool := true
  entries : List (String × CachePayload) := []
  deriving DecidableEq


/-- `DiskCache.get`: absent when disabled or when no file exists for the
key.  (A corrupt entry is also treated as absent by the source; corrupt
files are outside this model, whose entries are decoded payloads.) -/
def DiskCache.get (c : DiskCache) (key : String) : Option CachePayload :=
  if c.enabled then pyDictGet c.entries key else none


/-- `DiskCache.set`: atomic write of the value for the key; a no-op when
disabled. -/
def DiskCache.set (c : DiskCache) (key : String) (v : CachePayload) : DiskCache :=
  if c.enabled then { c with entries := pyDictInsert key v c.entries } else c


/-- The methods `class DiskCache` defines in src/cache.py: `make_key`,
`get`, `set` — and nothing else. -/
def diskCacheMethods : List String := ["make_key", "get", "set"]


/-- How a model-call executor run can fail. -/
inductive ExecError where
  /-- `cache.delete(key)` in bootstrap's `run_model_call`: `DiskCache`
  defines no `delete` attribute, so Python raises `AttributeError` at the
  lookup, before any provider call. -/
  | attributeNoDelete
  /-- The provider call raised out of the retry loop. -/
  | raised (e : PyExc)
  /-- `with_retries` hit its `assert last_exc is not None` (never happens
  for `max_attempts ≥ 1`). -/
  | assertionFailed
  deriving DecidableEq


/-- `LLMResponse` from src/types.py, restricted to the fields the executors
read. -/
structure LLMResponse where
  provider : String := ""
  model : String := ""
  text : String := ""
  request_id : Option String := none
  deriving DecidableEq


/-- One full executor run: the retry-loop events that happened, the final
outcome (`payload, cache_hit, cache_key` on success), and the cache state
afterwards. -/
structure ExecRun where
  events : List RetryEv
  result : Except ExecError (CachePayload × Bool × String)
  cache : DiskCache


/-- `_is_empty_response_payload` from bootstrap's `run_model_call`:
`payload.get("text")` missing/None, or whitespace-only once stringified. -/
def is_empty_response_payload (p : CachePayload) : Bool :=
  match p.text with
  | none => true
  | some t => pyStripEmpty t


/-- The payload dict built from a successful provider response (bootstrap
lines 94–102, run.py lines 75–83 — identical construction). -/
def payloadOfResponse (r : LLMResponse) : CachePayload :=
  { provider := r.provider, model := r.model, text := some r.text,
    request_id := r.request_id }


/-- `RuntimeError("empty response text")` as raised by bootstrap's
`_generate`. -/
def emptyResponseExc : PyExc := { msg := "empty response text" }


/-- Bootstrap's `_generate` closure: run the provider call, and for the
`response` stage raise `RuntimeError("empty response text")` when the
returned text is missing or whitespace-only. -/
def bootstrapGenerate (stage : String) (out : CallOutcome LLMResponse) :
    CallOutcome LLMResponse :=
  match out with
  | .raise e => .raise e
  | .ok r => if stage = "response" ∧ pyStripEmpty r.text then .raise emptyResponseExc else .ok r


/-- `run_model_call` from src/runner/bootstrap.py (lines 57–106).  `key` is
the cache key computed by `cache.make_key(_cache_key_payload(request, stage))`;
`gen n` is the behaviour of the `n`-th `provider.generate` call; `jitter n`
the jitter sampled after the `n`-th failed attempt. -/
def run_model_call (key : String) (cache : DiskCache)
    (gen : ℕ → CallOutcome LLMResponse) (jitter : ℕ → ℚ) (retry : RetryConfig)
    (stage : String) : ExecRun :=
  let live : ExecRun :=
    let r := with_retries (fun n => bootstrapGenerate stage (gen n)) jitter retry
    match r.2 with
    | .raised e => { events := r.1, result := .error (.raised e), cache := cache }
    | .assertionFailed => { events := r.1, result := .error .assertionFailed, cache := cache }
    | .ok resp =>
      let payload := payloadOfResponse resp
      if stage = "response" ∧ is_empty_response_payload payload then
        { events := r.1, result := .error (.raised emptyResponseExc), cache := cache }
      else
        { events := r.1, result := .ok (payload, false, key), cache := cache.set key payload }
  match cache.get key with
  | some cached =>
    if stage = "response" ∧ is_empty_response_payload cached then
      -- `cache.delete(key)`: `DiskCache` has no `delete` attribute
      -- (`diskCache_has_no_delete`), so the attribute lookup raises before
      -- the fall-through to a live call can happen.
      { events := [], result := .error .attributeNoDelete, cache := cache }
    else
      { events := [], result := .ok (cached, true, key), cache := cache }
  | none => live


/-- `_run_model_call` from run.py (lines 56–85): any decoded cached payload
is returned as a hit, with no emptiness check at either stage; a live
success is cached and returned with no emptiness check either. -/
def run_local_run_model_call (key : String) (cache : DiskCache)
    (gen : ℕ → CallOutcome LLMResponse) (jitter : ℕ → ℚ) (retry : RetryConfig)
    (_stage : String) : ExecRun :=
  match cache.get key with
  | some cached =>
    { events := [], result := .ok (cached, true, key), cache := cache }
  | none =>
    let r := with_retries gen jitter retry
    match r.2 with
    | .raised e => { events := r.1, result := .error (.raised e), cache := cache }
    | .assertionFailed => { events := r.1, result := .error .assertionFailed, cache := cache }
    | .ok resp =>
      let payload := payloadOfResponse resp
      { events := r.1, result := .ok (payload, false, key), cache := cache.set key payload }


/-- The executor `run.py`'s `run()` passes to the orchestrator as
`run_model_call=` (run.py line 152) — the local `_run_model_call`, used for
both the `response` stage (generation phase) and the `judge` stage
(judging phase). -/
def runWiredModelCall : String → DiskCache → (ℕ → CallOutcome LLMResponse) →
    (ℕ → ℚ) → RetryConfig → String → ExecRun :=
  run_local_run_model_call


/-! ## Per-minute rate limiter (`src/runner/rate_limiter.py`)

`wait()` runs its whole read-modify-write under `self._lock`, so concurrent
callers serialize into some total order; the embedding folds over that
order.  The `n`-th entry of `times` is the monotonic-clock reading the
`n`-th serialized caller takes while holding the lock.  A caller that reads
`now` then sleeps `max(0, next_allowed - now)` is admitted (returns from
`wait()`) at instant `max(now, next_allowed)`; the tracked next-allowed
instant advances to that admission instant plus `60/rpm`.
-/

/-- One `wait()` step on the mutable limiter state: given the tracked
`next_allowed` and the caller's clock reading `now`, return the caller's
admission instant and the updated `next_allowed`. -/
def rateLimiterStep (interval_s next_allowed now : ℚ) : ℚ × ℚ :=
  let admitted := now + max 0 (next_allowed - now)
  (admitted, max next_allowed now + interval_s)


/-- The admission instants of a serialized sequence of `wait()` calls on a
`PerMinuteRateLimiter(requests_per_minute)`, whose interval is `60/rpm`
seconds and whose `_next_allowed` starts at `0.0`. -/
def rateLimiterAdmissions (requests_per_minute : ℚ) (times : List ℚ) : List ℚ :=
  let interval_s := 60 / requests_per_minute
  (times.foldl
    (fun acc now =>
      let step := rateLimiterStep interval_s acc.2 now
      (acc.1 ++ [step.1], step.2))
    (([] : List ℚ), (0 : ℚ))).1


/-! ## Judge scoring (`src/judge/judge.py`, `src/runner/judging.py`)

Python source names beginning with an underscore are embedded without the
underscore (`_normalize_key` → `normalize_key`, …).
-/

/-- Maximal `[a-z0-9]` runs of a character list, as strings. -/
def alnumRuns : List Char → List Char → List String
  | [], cur => if cur = [] then [] else [⟨cur.reverse⟩]
  | c :: rest, cur =>
    if isLowerAlnum c then alnumRuns rest (c :: cur)
    else if cur = [] then alnumRuns rest []
    else ⟨cur.reverse⟩ :: alnumRuns rest []


/-- `_normalize_key`: lower-case, collapse every run of non-`[a-z0-9]`
characters to one space, strip.  Equivalently: the `[a-z0-9]` runs of the
lower-cased text joined by single spaces. -/
def normalize_key (s : String) : String :=
  String.intercalate " " (alnumRuns (s.data.map pyLowerChar) [])


/-- A rubric criterion dict, restricted to the fields the judge reads.
`weight = none` embeds a missing or non-numeric `weight` field; the
`annotations` map holds the numeric annotation values. -/
structure RubricCriterion where
  id : Option String := none
  title : Option String := none
  weight : Option ℚ := none
  annotations : List (String × ℚ) := []
  deriving DecidableEq


/-- The annotation keys `_criterion_weight` probes, in source order. -/
def weightAnnotationKeys : List String :=
  ["critically_important_weight", "important_weight", "slightly_important_weight",
   "critically_detrimental_weight", "detrimental_weight", "slightly_detrimental_weight"]


/-- `_criterion_weight`: the numeric `weight` field, else the first numeric
annotation among `weightAnnotationKeys`, else `1.0`. -/
def criterion_weight (item : RubricCriterion) : ℚ :=
  match item.weight with
  | some w => w
  | none => (weightAnnotationKeys.findSome? (fun k => pyDictGet item.annotations k)).getD 1


/-- `str(item.get("id", f"criterion_{i}"))`. -/
def criterionIdStr (item : RubricCriterion) (i : ℕ) : String :=
  item.id.getD ("criterion_" ++ toString i)


/-- `str(item.get("title", f"Criterion {i}"))`. -/
def criterionTitleStr (item : RubricCriterion) (i : ℕ) : String :=
  item.title.getD ("Criterion " ++ toString i)


/-- `_criterion_aliases` as a duplicate-free list in construction order.
(The source builds a Python `set`, whose iteration order is unspecified;
the claims below never depend on which of several simultaneously-matching
aliases is used.) -/
def criterion_aliases (item : RubricCriterion) (i : ℕ) : List String :=
  [normalize_key (criterionIdStr item i),
   normalize_key (criterionTitleStr item i),
   normalize_key ("criterion_" ++ toString i),
   normalize_key ("criterion " ++ toString i)].foldl
    (fun s a => pySetInsert a s) []


/-- `clamp_score_01` from src/types.py / the inline
`max(0.0, min(1.0, ...))` of src/judge/judge.py. -/
def clamp_score_01 (v : ℚ) : ℚ := max 0 (min 1 v)


/-- `resolve_rubric_criterion_score` (src/judge/judge.py lines 69–83):
normalize the returned criteria keys, look for a non-empty alias of the
criterion among them, and fall back to the clamped fallback score when
nothing matches.  Returns `(score, was_matched)`. -/
def resolve_rubric_criterion_score (criteria : List (String × ℚ))
    (criterion : RubricCriterion) (criterion_index : ℕ) (fallback_score : ℚ) :
    ℚ × Bool :=
  if criteria = [] then (clamp_score_01 fallback_score, false)
  else
    let normalized_scores := pyDictComprehension normalize_key id criteria
    match (criterion_aliases criterion criterion_index).find?
        (fun a => decide (a ≠ "") && pyDictMem a normalized_scores) with
    | some a => (clamp_score_01 ((pyDictGet normalized_scores a).getD 0), true)
    | none => (clamp_score_01 fallback_score, false)


/-- The `deterministic_rubric_aggregation` trace dict that
`apply_weighted_rubric_score` stores into `raw`. -/
structure AggregationTrace where
  applied : Bool
  matched_criteria : ℕ
  total_criteria : ℕ
  raw_sum : ℚ
  min_raw : ℚ
  max_raw : ℚ
  weighted_score : ℚ
  deriving DecidableEq


/-- `JudgeResult` from src/types.py.  The `raw` dict is embedded by the two
entries the pipeline reads or writes: the `error` entry that
`build_error_judge_result` stores (`raw_error`) and the
`deterministic_rubric_aggregation` entry that `apply_weighted_rubric_score`
stores (`raw_aggregation`); everything else in `raw` rides along unchanged
and is not modelled. -/
structure JudgeResult where
  score : ℚ
  passed : Bool
  rationale : String := ""
  criteria : List (String × ℚ) := []
  raw_error : Option String := none
  raw_aggregation : Option AggregationTrace := none
  parse_error : Bool := false
  deriving DecidableEq


/-- `NormalizedExample` from src/types.py, restricted to the fields the
judging pipeline reads.  `rubric = none` embeds a missing (`None`) rubric. -/
structure NormalizedExample where
  id : String := ""
  dataset_name : String := ""
  judge_mode : String := "auto"
  rubric : Option (List RubricCriterion) := none
  deriving DecidableEq


/-- The `weighted_items` list of `apply_weighted_rubric_score`: per rubric
criterion (1-based enumeration), its weight and the criterion score
resolution `(score_value, was_matched)` against the parsed criteria map
(fallback score `0.0`). -/
def rubricWeightedItems (criteria : List (String × ℚ)) (rubric : List RubricCriterion) :
    List (ℚ × ℚ × Bool) :=
  rubric.enum.map (fun p =>
    let r := resolve_rubric_criterion_score criteria p.2 (p.1 + 1) 0
    (criterion_weight p.2, r.1, r.2))


/-- The `matched` counter of `apply_weighted_rubric_score`. -/
def rubricMatched (criteria : List (String × ℚ)) (rubric : List RubricCriterion) : ℕ :=
  ((rubricWeightedItems criteria rubric).filter (fun t => t.2.2)).length


/-- `raw_sum = sum(weight * score for weight, score in weighted_items)`. -/
def rubricRawSum (criteria : List (String × ℚ)) (rubric : List RubricCriterion) : ℚ :=
  ((rubricWeightedItems criteria rubric).map (fun t => t.1 * t.2.1)).sum


/-- `min_raw = sum(min(0.0, weight) for weight, _ in weighted_items)`. -/
def rubricMinRaw (criteria : List (String × ℚ)) (rubric : List RubricCriterion) : ℚ :=
  ((rubricWeightedItems criteria rubric).map (fun t => min 0 t.1)).sum


/-- `max_raw = sum(max(0.0, weight) for weight, _ in weighted_items)`. -/
def rubricMaxRaw (criteria : List (String × ℚ)) (rubric : List RubricCriterion) : ℚ :=
  ((rubricWeightedItems criteria rubric).map (fun t => max 0 t.1)).sum


/-- The reported weighted score: the normalized, clipped weighted sum, or
the (clipped) incoming score when the attainable range is degenerate
(`max_raw ≤ min_raw`). -/
def rubricWeightedScore (criteria : List (String × ℚ)) (rubric : List RubricCriterion)
    (score0 : ℚ) : ℚ :=
  clamp_score_01
    (if rubricMaxRaw criteria rubric ≤ rubricMinRaw criteria rubric then score0
     else (rubricRawSum criteria rubric - rubricMinRaw criteria rubric) /
       (rubricMaxRaw criteria rubric - rubricMinRaw criteria rubric))


/-- The aggregation trace recorded into `raw` by the active branch of
`apply_weighted_rubric_score`. -/
def rubricAggTrace (criteria : List (String × ℚ)) (rubric : List RubricCriterion)
    (score0 : ℚ) : AggregationTrace :=
  { applied := true, matched_criteria := rubricMatched criteria rubric,
    total_criteria := (rubricWeightedItems criteria rubric).length,
    raw_sum := rubricRawSum criteria rubric,
    min_raw := rubricMinRaw criteria rubric,
    max_raw := rubricMaxRaw criteria rubric,
    weighted_score := rubricWeightedScore criteria rubric score0 }


/-- `apply_weighted_rubric_score` (src/judge/judge.py lines 250–306). -/
def apply_weighted_rubric_score (parsed : JudgeResult) (ex : NormalizedExample)
    (pass_threshold : ℚ) : JudgeResult :=
  if ex.judge_mode ≠ "rubric" then parsed
  else
    match ex.rubric with
    | none => parsed
    | some rubric =>
      if rubric = [] then parsed
      else if parsed.criteria = [] then parsed
      else
        let weighted_items := rubricWeightedItems parsed.criteria rubric
        let matched := rubricMatched parsed.criteria rubric
        if weighted_items = [] ∨ matched = 0 then parsed
        else
          let raw_sum := rubricRawSum parsed.criteria rubric
          let min_raw := rubricMinRaw parsed.criteria rubric
          let max_raw := rubricMaxRaw parsed.criteria rubric
          let pre_clip :=
            if max_raw ≤ min_raw then parsed.score
            else (raw_sum - min_raw) / (max_raw - min_raw)
          let weighted_score := clamp_score_01 pre_clip
          { parsed with
            score := weighted_score,
            passed := decide (weighted_score ≥ pass_threshold),
            raw_aggregation := some
              { applied := true, matched_criteria := matched,
                total_criteria := weighted_items.length,
                raw_sum := raw_sum, min_raw := min_raw, max_raw := max_raw,
                weighted_score := weighted_score } }


/-- `_enforce_fail_closed` (src/runner/judging.py lines 43–46). -/
def enforce_fail_closed (result : JudgeResult) : JudgeResult :=
  if result.parse_error then { result with score := 0, passed := false } else result


/-- `build_error_judge_result` (src/runner/helpers.py lines 69–78). -/
def build_error_judge_result (error_message : String) (context : String) : JudgeResult :=
  { score := 0, passed := false,
    rationale :=
      (if context = "" then "Judge call failed: "
       else "Judge call failed for " ++ context ++ ": ") ++ error_message,
    criteria := [], raw_error := some error_message, parse_error := true }


/-- A judgment row (src/runner/row_builders.py `build_judgment_row`),
restricted to the fields the verified properties read. -/
structure JudgmentRow where
  dataset : String
  example_id : String
  candidate_name : String
  judge_name : String := ""
  score : ℚ
  pass : Bool
  parse_error : Bool
  prbench_weighted_raw : Option ℚ := none
  deriving DecidableEq


/-- `build_judgment_row`: the row copies `score`, `pass` and `parse_error`
from the final `JudgeResult`, and `prbench_weighted_raw` is the aggregation
trace's `raw_sum` when a trace is present. -/
def build_judgment_row (ex : NormalizedExample) (candidate_name judge_name : String)
    (result : JudgeResult) : JudgmentRow :=
  { dataset := ex.dataset_name, example_id := ex.id,
    candidate_name := candidate_name, judge_name := judge_name,
    score := result.score, pass := result.passed, parse_error := result.parse_error,
    prbench_weighted_raw := result.raw_aggregation.map (fun a => a.raw_sum) }


/-- `_handle_mcq_judgment` (src/runner/judging.py lines 133–179), as a
function of the deterministic grader's output `graded`
(`grade_mcq_output(...)`, an injected service of the judging phase). -/
def handle_mcq_judgment (ex : NormalizedExample) (candidate_name : String)
    (graded : JudgeResult) : JudgmentRow :=
  build_judgment_row ex candidate_name "deterministic_mcq"
    (enforce_fail_closed graded)


/-- `_handle_single_judge` (src/runner/judging.py lines 573–672), as a
function of the parsed judge output and of the injected
`apply_policy_score_postprocessing` service (`postproc`; that service is
referenced but not defined under src/, and the property proved below holds
for every possible behaviour of it). -/
def handle_single_judge (ex : NormalizedExample)
    (candidate_name judge_name : String) (pass_threshold : ℚ)
    (postproc : JudgeResult → JudgeResult) (parsed : JudgeResult) : JudgmentRow :=
  build_judgment_row ex candidate_name judge_name
    (enforce_fail_closed
      (postproc (apply_weighted_rubric_score parsed ex pass_threshold)))


/-- `_aggregate_rubric_result` (src/runner/judging.py lines 384–415): build
the aggregate `JudgeResult` from the per-criterion scores/rationales and
the or-ed parse-error flag, apply the weighted rubric aggregation, then
enforce fail-closed. -/
def aggregate_rubric_result (criterion_scores : List (String × ℚ))
    (criterion_rationales : List (String × String)) (any_parse_error : Bool)
    (ex : NormalizedExample) (pass_threshold : ℚ) : JudgeResult :=
  let aggregate : JudgeResult :=
    { score := 0, passed := false,
      rationale := String.intercalate "\n\n"
        ((criterion_rationales.filter (fun p => p.2 ≠ "")).map
          (fun p => p.1 ++ ": " ++ p.2)),
      criteria := criterion_scores, parse_error := any_parse_error }
  enforce_fail_closed (apply_weighted_rubric_score aggregate ex pass_threshold)


/-- The judgment row emitted by `_handle_rubric_multi_judge`
(src/runner/judging.py lines 418–510): `build_judgment_row` over
`_aggregate_rubric_result`. -/
def handle_rubric_multi_judge (ex : NormalizedExample)
    (candidate_name judge_name : String) (criterion_scores : List (String × ℚ))
    (criterion_rationales : List (String × String)) (any_parse_error : Bool)
    (pass_threshold : ℚ) : JudgmentRow :=
  build_judgment_row ex candidate_name judge_name
    (aggregate_rubric_result criterion_scores criterion_rationales any_parse_error
      ex pass_threshold)


/-- `_build_unexpected_judge_item_result` (src/runner/judging.py lines
675–740): the fail-closed error row the judge-dispatch boundary emits for
an unexpected exception. -/
def build_unexpected_judge_item_result (ex : NormalizedExample)
    (candidate_name : String) (error : String) : JudgmentRow :=
  build_judgment_row ex candidate_name "judge_phase_error"
    (enforce_fail_closed (build_error_judge_result error "judge dispatch"))


/-! ## Task planning and output-row ordering
(`src/runner/generation.py`, `src/runner/judging.py`) -/

/-- `_plan_generation_tasks` (src/runner/generation.py lines 32–43): the
nested candidate-major loop that assigns `display_index` values starting
from 1, returning the task list and `total_items`. -/
def plan_generation_tasks {κ ε : Type} (candidates : List κ) (examples : List ε) :
    List (ℕ × κ × ε) × ℕ :=
  let total_items := candidates.length * examples.length
  let generation_tasks :=
    (candidates.foldl
      (fun (acc : List (ℕ × κ × ε) × ℕ) c =>
        examples.foldl
          (fun (acc2 : List (ℕ × κ × ε) × ℕ) e =>
            (acc2.1 ++ [(acc2.2 + 1, c, e)], acc2.2 + 1))
          acc)
      ([], 0)).1
  (generation_tasks, total_items)


/-- A generation result as collected by the generation phase, restricted to
the task identity and the response row it carries. -/
structure GenItem (ρ : Type) where
  display_index : ℕ
  candidate_name : String
  example_id : String
  response_row : ρ


/-- `generation_results.sort(key=lambda item: item.display_index)`
(src/runner/generation.py line 475), followed by the row collection of
`_build_generation_artifacts` (lines 395–426), which appends one response
row per result in the sorted order. -/
def generation_responses_rows {ρ : Type} (generation_results : List (GenItem ρ)) :
    List ρ :=
  (sortLe (fun a b => decide (a.display_index ≤ b.display_index)) generation_results).map
    (fun item => item.response_row)


/-- The row-collection loop of `run_judge_phase` (src/runner/judging.py
lines 768–824): completed futures land in the `ordered_results` dict keyed
by `display_index` in completion order (`completions`, with `eval i` the
result of the task with display index `i`); the output rows are then
collected by iterating `generation_results` in list order and skipping
indices with no result. -/
def run_judge_phase_rows {ρ : Type} (generation_results : List (GenItem ρ))
    (eval : ℕ → JudgmentRow) (completions : List ℕ) : List JudgmentRow :=
  let ordered_results := completions.foldl (fun d i => pyDictInsert i (eval i) d) []
  generation_results.foldl
    (fun rows g =>
      match pyDictGet ordered_results g.display_index with
      | none => rows
      | some row => rows ++ [row])
    []


/-! ## Backfill overlay (`src/runner/reconcile.py`) -/

/-- The composite row key `(dataset, example_id, candidate_name)`. -/
abbrev RowKey := String × String × String


/-- Python's lexicographic comparison of two `RowKey` string triples. -/
def rowKeyCmp (a b : RowKey) : Ordering :=
  match pyCmpChars a.1.data b.1.data with
  | .lt => .lt
  | .gt => .gt
  | .eq =>
    match pyCmpChars a.2.1.data b.2.1.data with
    | .lt => .lt
    | .gt => .gt
    | .eq => pyCmpChars a.2.2.data b.2.2.data


/-- `a <= b` for sorting row keys the way Python sorts string triples. -/
def rowKeyLe (a b : RowKey) : Bool := !(rowKeyCmp a b == .gt)


/-- `a < b` on row keys. -/
def rowKeyLt (a b : RowKey) : Bool := rowKeyCmp a b == .lt


/-- `overlay_rows` (src/runner/reconcile.py lines 13–24), generic in the
row type with `rowKeyOf` embedding `row_key` (line 9–10): index the base
rows by key, let each patch row replace the binding at its key (counting a
replacement when the key was already bound), then return the bindings in
sorted key order together with the replacement count. -/
def overlay_rows {α : Type} (rowKeyOf : α → RowKey) (base_rows patch_rows : List α) :
    List α × ℕ :=
  let merged0 := base_rows.foldl (fun d r => pyDictInsert (rowKeyOf r) r d) []
  let step := patch_rows.foldl
    (fun (acc : List (RowKey × α) × ℕ) r =>
      (pyDictInsert (rowKeyOf r) r acc.1,
       acc.2 + (if pyDictMem (rowKeyOf r) acc.1 then 1 else 0)))
    (merged0, 0)
  let ordered_keys := sortLe rowKeyLe (step.1.map (fun p => p.1))
  (ordered_keys.filterMap (fun k => pyDictGet step.1 k), step.2)


/-! ## Merge reconciler (`scripts/merge_backfill.py`, `src/runner/output.py`)

`merge_run_outputs` is embedded as the pure function from the decoded
artifact rows of the base and backfill runs to the merged rows, the
synthetic failure items, the merged run status and the recomputed summary
aggregates (the file I/O around it is not modelled).
-/

/-- A row of the base run's `examples.jsonl` as `_example_row_key_fields`
reads it: the `dataset`, `example_id` and `id` fields, each `none` when
missing or not a string. -/
structure ExampleRow where
  dataset : Option String := none
  example_id : Option String := none
  id : Option String := none
  deriving DecidableEq


/-- `_example_row_key_fields` (scripts/merge_backfill.py lines 17–26). -/
def example_row_key_fields (row : ExampleRow) : Option (String × String) :=
  let example_id :=
    match row.example_id with
    | none => row.id
    | some v => some v
  match row.dataset, example_id with
  | some d, some e => if pyStripEmpty d || pyStripEmpty e then none else some (d, e)
  | _, _ => none


/-- `_expected_keys` (scripts/merge_backfill.py lines 29–46): the candidate
names declared in the base `run_config.json` (string-valued, non-blank)
crossed with the valid example rows, as a set. `config_candidate_names`
holds each candidate entry's `name` field (`none` for a missing/non-string
name or a non-dict entry). -/
def expected_keys (base_examples : List ExampleRow)
    (config_candidate_names : List (Option String)) : List RowKey :=
  let candidate_names := config_candidate_names.filterMap (fun c =>
    match c with
    | some n => if pyStripEmpty n then none else some n
    | none => none)
  base_examples.foldl
    (fun keys row =>
      match example_row_key_fields row with
      | none => keys
      | some de =>
        candidate_names.foldl (fun ks n => pySetInsert (de.1, de.2, n) ks) keys)
    []


/-- A synthetic failure item recorded by the merge
(`_missing_failure_items`). -/
structure MergeFailureItem where
  dataset : String
  example_id : String
  candidate_name : String
  stage : String
  error : String
  deriving DecidableEq


/-- `_missing_failure_items` (scripts/merge_backfill.py lines 49–59). -/
def missing_failure_items (keys : List RowKey) (stage message : String) :
    List MergeFailureItem :=
  keys.map (fun k =>
    { dataset := k.1, example_id := k.2.1, candidate_name := k.2.2,
      stage := stage, error := message })


/-- A `responses.jsonl` row as the merge reads it. -/
structure MergeResponseRow where
  dataset : String
  example_id : String
  candidate_name : String
  response_text : String := ""
  deriving DecidableEq


/-- A `judgments.jsonl` row as the merge and `build_summary` read it. -/
structure MergeJudgmentRow where
  dataset : String
  example_id : String
  candidate_name : String
  score : ℚ := 0
  pass : Bool := false
  prbench_points_normalized : Option ℚ := none
  prbench_points_clipped : Option ℚ := none
  deriving DecidableEq


/-- `row_key` (src/runner/reconcile.py lines 9–10) on a response row. -/
def responseRowKey (r : MergeResponseRow) : RowKey :=
  (r.dataset, r.example_id, r.candidate_name)


/-- `row_key` on a judgment row. -/
def judgmentRowKey (r : MergeJudgmentRow) : RowKey :=
  (r.dataset, r.example_id, r.candidate_name)


/-- `ModelStats` from src/runner/output.py. -/
structure ModelStats where
  responses : ℕ := 0
  judged : ℕ := 0
  score_sum : ℚ := 0
  pass_count : ℕ := 0
  prbench_normalized_sum : ℚ := 0
  prbench_normalized_count : ℕ := 0
  prbench_clipped_sum : ℚ := 0
  prbench_clipped_count : ℕ := 0
  deriving DecidableEq


/-- `ModelStats.add_response`. -/
def ModelStats.add_response (s : ModelStats) : ModelStats :=
  { s with responses := s.responses + 1 }


/-- `ModelStats.add_judgment`. -/
def ModelStats.add_judgment (s : ModelStats) (score : ℚ) (passed : Bool)
    (prbench_normalized prbench_clipped : Option ℚ) : ModelStats :=
  let s := { s with judged := s.judged + 1, score_sum := s.score_sum + score }
  let s := if passed then { s with pass_count := s.pass_count + 1 } else s
  let s :=
    match prbench_normalized with
    | some v => { s with prbench_normalized_sum := s.prbench_normalized_sum + v,
                         prbench_normalized_count := s.prbench_normalized_count + 1 }
    | none => s
  match prbench_clipped with
  | some v => { s with prbench_clipped_sum := s.prbench_clipped_sum + v,
                       prbench_clipped_count := s.prbench_clipped_count + 1 }
  | none => s


/-- The dict `ModelStats.to_dict` returns; the optional prbench blocks are
`(sum, count, average)` triples present exactly when the count is nonzero. -/
structure StatsOut where
  responses : ℕ
  judged : ℕ
  score_sum : ℚ
  pass_count : ℕ
  avg_score : ℚ
  pass_rate : ℚ
  prbench_normalized : Option (ℚ × ℕ × ℚ) := none
  prbench_clipped : Option (ℚ × ℕ × ℚ) := none
  deriving DecidableEq


/-- `ModelStats.to_dict` (divisions guard by `max(1, judged)`). -/
def ModelStats.to_dict (s : ModelStats) : StatsOut :=
  let judged := max 1 s.judged
  { responses := s.responses, judged := s.judged, score_sum := s.score_sum,
    pass_count := s.pass_count,
    avg_score := s.score_sum / judged,
    pass_rate := (s.pass_count : ℚ) / judged,
    prbench_normalized :=
      if s.prbench_normalized_count = 0 then none
      else some (s.prbench_normalized_sum, s.prbench_normalized_count,
        s.prbench_normalized_sum / s.prbench_normalized_count),
    prbench_clipped :=
      if s.prbench_clipped_count = 0 then none
      else some (s.prbench_clipped_sum, s.prbench_clipped_count,
        s.prbench_clipped_sum / s.prbench_clipped_count) }


/-- The aggregate part of the summary dict `build_summary` returns. -/
structure SummaryAggregates where
  models : List (String × StatsOut)
  by_dataset : List (String × List (String × StatsOut))
  num_responses : ℕ
  num_judgments : ℕ
  deriving DecidableEq


/-- `setdefault(k, default)` followed by a mutation `f` of the value:
update in place when the key is bound, else append the mutated default. -/
def pySetdefaultUpdate {κ α : Type} [DecidableEq κ] (d : List (κ × α)) (k : κ)
    (default : α) (f : α → α) : List (κ × α) :=
  pyDictInsert k (f ((pyDictGet d k).getD default)) d


/-- `build_summary` (src/runner/output.py lines 105–139): per-candidate and
per-dataset/candidate stats accumulated over the response rows then the
judgment rows, rendered by `to_dict`. -/
def build_summary (responses : List MergeResponseRow)
    (judgments : List MergeJudgmentRow) : SummaryAggregates :=
  let by_model : List (String × ModelStats) :=
    responses.foldl
      (fun d r => pySetdefaultUpdate d r.candidate_name {} ModelStats.add_response) []
  let by_dataset_model : List (String × List (String × ModelStats)) :=
    responses.foldl
      (fun d r => pySetdefaultUpdate d r.dataset []
        (fun inner => pySetdefaultUpdate inner r.candidate_name {} ModelStats.add_response))
      []
  let by_model :=
    judgments.foldl
      (fun d j => pySetdefaultUpdate d j.candidate_name {}
        (fun s => s.add_judgment j.score j.pass
          j.prbench_points_normalized j.prbench_points_clipped))
      by_model
  let by_dataset_model :=
    judgments.foldl
      (fun d j => pySetdefaultUpdate d j.dataset []
        (fun inner => pySetdefaultUpdate inner j.candidate_name {}
          (fun s => s.add_judgment j.score j.pass
            j.prbench_points_normalized j.prbench_points_clipped)))
      by_dataset_model
  { models := by_model.map (fun p => (p.1, p.2.to_dict)),
    by_dataset := by_dataset_model.map
      (fun p => (p.1, p.2.map (fun q => (q.1, q.2.to_dict)))),
    num_responses := responses.length,
    num_judgments := judgments.length }


/-- The outcome of `merge_run_outputs` (scripts/merge_backfill.py lines
62–150) that the verified properties read: merged row streams, synthetic
failure items, merged run status, recomputed summary aggregates, and the
reconciliation counts. -/
structure MergeResult where
  merged_responses : List MergeResponseRow
  merged_judgments : List MergeJudgmentRow
  failed_items : List MergeFailureItem
  run_status : String
  summary : SummaryAggregates
  replaced_responses : ℕ
  replaced_judgments : ℕ
  missing_responses : ℕ
  missing_judgments : ℕ
  deriving DecidableEq


/-- `merge_run_outputs`, as a pure function of the decoded artifact rows:
overlay both row streams, compute the still-missing expected pairs, turn
them into synthetic failure items, set the run status, and recompute the
summary from the merged rows. -/
def merge_run_outputs (base_examples : List ExampleRow)
    (config_candidate_names : List (Option String))
    (base_responses patch_responses : List MergeResponseRow)
    (base_judgments patch_judgments : List MergeJudgmentRow) : MergeResult :=
  let mr := overlay_rows responseRowKey base_responses patch_responses
  let mj := overlay_rows judgmentRowKey base_judgments patch_judgments
  let expected_pairs := expected_keys base_examples config_candidate_names
  let response_pairs := mr.1.map responseRowKey
  let judgment_pairs := mj.1.map judgmentRowKey
  let missing_response_keys :=
    sortLe rowKeyLe (expected_pairs.filter (fun k => !(decide (k ∈ response_pairs))))
  let missing_judgment_keys :=
    sortLe rowKeyLe (expected_pairs.filter (fun k => !(decide (k ∈ judgment_pairs))))
  let failed_items :=
    missing_failure_items missing_response_keys "response_missing_after_merge"
      "Missing response row after merge overlay." ++
    missing_failure_items missing_judgment_keys "judge_missing_after_merge"
      "Missing judgment row after merge overlay."
  let merged_run_status := if failed_items = [] then "completed" else "degraded"
  { merged_responses := mr.1, merged_judgments := mj.1,
    failed_items := failed_items, run_status := merged_run_status,
    summary := build_summary mr.1 mj.1,
    replaced_responses := mr.2, replaced_judgments := mj.2,
    missing_responses := missing_response_keys.length,
    missing_judgments := missing_judgment_keys.length }


/-! ## Claim theorems -/

/-- The cache state of claim C1's failing input: the entry at the request's
key holds `{"text": ""}`. -/
def c1SeededCache : DiskCache :=
  { enabled := true, entries := [("k", { text := some "" })] }


/-- Rubric fixture: an example in rubric mode with the given rubric. -/
def c2Example (rubric : List RubricCriterion) : NormalizedExample :=
  { id := "e1", dataset_name := "d", judge_mode := "rubric", rubric := some rubric }


/-- Rubric `{c1: w=2, c2: w=1}`. -/
def c2RubricPos : List RubricCriterion :=
  [{ id := some "c1", weight := some 2 }, { id := some "c2", weight := some 1 }]


/-- Rubric `{good: w=8, bad: w=-5}`. -/
def c2RubricMixed : List RubricCriterion :=
  [{ id := some "good", weight := some 8 }, { id := some "bad", weight := some (-5) }]


/-- Parsed criteria `{c1: met, c2: unmet}`. -/
def c2ParsedPos : JudgeResult :=
  { score := 0, passed := false, criteria := [("c1", 1), ("c2", 0)] }


/-- Parsed criteria `{good: met, bad: met}`. -/
def c2ParsedMixedMet : JudgeResult :=
  { score := 0, passed := false, criteria := [("good", 1), ("bad", 1)] }


/-- Parsed criteria `{good: met, bad: unmet}`. -/
def c2ParsedMixedUnmet : JudgeResult :=
  { score := 0, passed := false, criteria := [("good", 1), ("bad", 0)] }


/-- Fixture for C9: parsed criteria whose single key matches no alias of
`c2RubricPos`'s criteria. -/
def c9NoMatchParsed : JudgeResult :=
  { score := 1/4, passed := false, criteria := [("zzz", 1)] }


/-- Fixture for C9: an example whose judge mode is not `rubric`. -/
def c9McqExample : NormalizedExample :=
  { id := "e2", dataset_name := "d", judge_mode := "mcq", rubric := none }


/-- Fixture for C3: a reference-mode example. -/
def c3Example : NormalizedExample :=
  { id := "e3", dataset_name := "d", judge_mode := "reference", rubric := none }


/-- Fixture for C3: a parse-error judge result whose upstream score and
pass flag are favourable (they must be wiped by fail-closed enforcement). -/
def c3ParseErrorResult : JudgeResult :=
  { score := 1, passed := true, criteria := [("overall", 1)], parse_error := true }


/-- Fixture for C7: a transient (rate-limit) provider error with no
retry-after hint. -/
def c7Err : PyExc := { msg := "Rate limit exceeded, please slow down" }


/-- Fixture for C7: retry config with three attempts. -/
def c7Retry : RetryConfig := { max_attempts := 3, base_delay_s := 1, max_delay_s := 30 }


/-- Fixture for C7: the first call raises the transient error, the second
succeeds. -/
def c7Outcomes : ℕ → CallOutcome ℕ := fun n => if n = 1 then .raise c7Err else .ok 42


/-- Fixture for C6: 2 candidates × 2 examples in candidate-major order with
display indices 1–4. -/
def c6GenResults : List (GenItem ℕ) :=
  [⟨1, "A", "ex1", 0⟩, ⟨2, "A", "ex2", 0⟩, ⟨3, "B", "ex1", 0⟩, ⟨4, "B", "ex2", 0⟩]


/-- Fixture for C6: the judgment row each display index's task produces. -/
def c6Eval : ℕ → JudgmentRow := fun i =>
  { dataset := "d", example_id := if i % 2 = 1 then "ex1" else "ex2",
    candidate_name := if i ≤ 2 then "A" else "B",
    score := 0, pass := false, parse_error := false }


/-- Row keys of the C4 example: `c4K1 < c4K2 < c4K3` in Python's tuple
order. -/
def c4K1 : RowKey := ("alpha", "ex1", "m1")


/-- Second key of the C4 example (shared by base and patch). -/
def c4K2 : RowKey := ("alpha", "ex1", "m2")


/-- Third key of the C4 example (patch only). -/
def c4K3 : RowKey := ("alpha", "ex2", "m1")


/-- Base rows of the C4 example, keyed `{c4K1, c4K2}`. -/
def c4Base : List (RowKey × ℕ) := [(c4K1, 1), (c4K2, 2)]


/-- Patch rows of the C4 example, keyed `{c4K2, c4K3}`. -/
def c4Patch : List (RowKey × ℕ) := [(c4K2, 20), (c4K3, 30)]


/-- Example rows of the C5 witness run: two valid examples in dataset
`alpha`. -/
def c5Examples : List ExampleRow :=
  [{ dataset := some "alpha", example_id := some "ex1" },
   { dataset := some "alpha", example_id := some "ex2" }]


/-- Candidate names of the C5 witness run config: one candidate `m1`. -/
def c5Names : List (Option String) := [some "m1"]


/-- Base responses of the C5 witness: only `ex1` is covered, so the
expected pair `(alpha, ex2, m1)` has no response row after the merge. -/
def c5BaseResponses : List MergeResponseRow :=
  [{ dataset := "alpha", example_id := "ex1", candidate_name := "m1" }]


/-- Base judgments of the C5 witness: both expected pairs are covered. -/
def c5BaseJudgments : List MergeJudgmentRow :=
  [{ dataset := "alpha", example_id := "ex1", candidate_name := "m1" },
   { dataset := "alpha", example_id := "ex2", candidate_name := "m1" }]


theorem insertLe_perm {α : Type} (le : α → α → Bool) (a : α) (l : List α) :
    List.Perm (insertLe le a l) (a :: l) := by
  induction l with
  | nil => simp [insertLe]
  | cons b bs ih =>
    simp only [insertLe]
    by_cases h : le b a
    · simp only [h, if_pos]
      exact ((ih.cons b).trans (List.Perm.swap a b bs))
    · simp [h]


theorem sortLe_perm {α : Type} (le : α → α → Bool) (l : List α) :
    List.Perm (sortLe le l) l := by
  induction l with
  | nil => simp [sortLe]
  | cons a as ih =>
    exact (insertLe_perm le a (sortLe le as)).trans (ih.cons a)


theorem insertLe_pairwise {α : Type} (le : α → α → Bool)
    (htot : ∀ x y, le x y = true ∨ le y x = true)
    (htrans : ∀ x y z, le x y = true → le y z = true → le x z = true)
    (a : α) (l : List α) (hl : l.Pairwise (fun x y => le x y = true)) :
    (insertLe le a l).Pairwise (fun x y => le x y = true) := by
  induction l with
  | nil => simp [insertLe]
  | cons b bs ih =>
    rw [List.pairwise_cons] at hl
    rcases hl with ⟨hb, hbs⟩
    simp only [insertLe]
    by_cases h : le b a = true
    · simp only [h, if_pos]
      refine List.pairwise_cons.mpr ⟨?_, ih hbs⟩
      intro x hx
      have hx' := (insertLe_perm le a bs).mem_iff.mp hx
      rcases List.mem_cons.mp hx' with hxa | hxbs
      · subst hxa; exact h
      · exact hb x hxbs
    · have hab : le a b = true := by
        rcases htot a b with hab | hba
        · exact hab
        · exact absurd hba h
      simp only [h, if_neg, Bool.false_eq_true, not_false_eq_true]
      refine List.pairwise_cons.mpr ⟨?_, List.pairwise_cons.mpr ⟨hb, hbs⟩⟩
      intro x hx
      rcases List.mem_cons.mp hx with hxb | hxbs
      · subst hxb; exact hab
      · exact htrans a b x hab (hb x hxbs)


theorem sortLe_pairwise {α : Type} (le : α → α → Bool)
    (htot : ∀ x y, le x y = true ∨ le y x = true)
    (htrans : ∀ x y z, le x y = true → le y z = true → le x z = true)
    (l : List α) :
    (sortLe le l).Pairwise (fun x y => le x y = true) := by
  induction l with
  | nil => simp [sortLe]
  | cons a as ih => exact insertLe_pairwise le htot htrans a (sortLe le as) ih


theorem diskCache_has_no_delete : "delete" ∉ diskCacheMethods := by decide


/-- C1 (code_bug evidence): with the cache seeded with an empty-text entry
at the request's key and `stage="response"`, bootstrap's `run_model_call`
does NOT delete the entry and fall through to one live call — it raises
`AttributeError` at `cache.delete(key)` (src/cache.py's `DiskCache` defines
no `delete`), performing zero provider calls and leaving the empty entry in
place. -/
theorem c1_empty_cached_response_crashes_on_delete :
    (run_model_call "k" c1SeededCache
        (fun _ => .ok { text := "fresh text" }) (fun _ => 0) {} "response").result =
      .error .attributeNoDelete ∧
    (run_model_call "k" c1SeededCache
        (fun _ => .ok { text := "fresh text" }) (fun _ => 0) {} "response").events = [] ∧
    (run_model_call "k" c1SeededCache
        (fun _ => .ok { text := "fresh text" }) (fun _ => 0) {} "response").cache =
      c1SeededCache := by
  refine ⟨rfl, rfl, rfl⟩


/-- C10: the executor `run()` wires into the orchestrator
(`runWiredModelCall`, run.py's local `_run_model_call`) returns any decoded
cached payload unchanged with `cache_hit=true` at every stage — including a
response-stage payload with empty text — and on a cache miss whose retry
loop succeeds it caches and returns the live payload with no emptiness
check; bootstrap's separately defined `run_model_call` is the one with the
empty-response branch (it refuses to return an empty response-stage cache
hit). -/
theorem c10_run_local_executor_never_quarantines (key : String) (cache : DiskCache)
    (gen : ℕ → CallOutcome LLMResponse) (jitter : ℕ → ℚ) (retry : RetryConfig)
    (stage : String) :
    (∀ cached, cache.get key = some cached →
      runWiredModelCall key cache gen jitter retry stage =
        { events := [], result := .ok (cached, true, key), cache := cache }) ∧
    (∀ resp, cache.get key = none →
      (with_retries gen jitter retry).2 = .ok resp →
      runWiredModelCall key cache gen jitter retry stage =
        { events := (with_retries gen jitter retry).1,
          result := .ok (payloadOfResponse resp, false, key),
          cache := cache.set key (payloadOfResponse resp) }) ∧
    (∀ cached, cache.get key = some cached →
      stage = "response" → is_empty_response_payload cached = true →
      (run_model_call key cache gen jitter retry stage).result =
        .error .attributeNoDelete) := by
  refine ⟨?_, ?_, ?_⟩
  · intro cached hget
    simp [runWiredModelCall, run_local_run_model_call, hget]
  · intro resp hget hok
    simp only [runWiredModelCall, run_local_run_model_call, hget]
    rw [hok]
  · intro cached hget hstage hempty
    subst hstage
    simp [run_model_call, hget, hempty]


/-- Closed instance of C10: a cached empty-text response payload is
returned as a hit by the wired executor at both stages, while bootstrap's
executor errors on it at the response stage; and a miss caches the live
payload verbatim. -/
theorem c10_witness :
    runWiredModelCall "k" c1SeededCache
        (fun _ => .ok { text := "fresh text" }) (fun _ => 0) {} "response" =
      { events := [], result := .ok ({ text := some "" }, true, "k"),
        cache := c1SeededCache } ∧
    runWiredModelCall "k" c1SeededCache
        (fun _ => .ok { text := "fresh text" }) (fun _ => 0) {} "judge" =
      { events := [], result := .ok ({ text := some "" }, true, "k"),
        cache := c1SeededCache } ∧
    runWiredModelCall "k" { enabled := true, entries := [] }
        (fun _ => .ok { text := "" }) (fun _ => 0) {} "response" =
      { events := [RetryEv.before 1, RetryEv.call 1],
        result := .ok ({ text := some "" }, false, "k"),
        cache := { enabled := true,
                   entries := [("k", { text := some "" })] } } ∧
    (run_model_call "k" c1SeededCache
        (fun _ => .ok { text := "fresh text" }) (fun _ => 0) {} "response").result =
      .error .attributeNoDelete := by
  refine ⟨?_, ?_, ?_, ?_⟩
  · exact (c10_run_local_executor_never_quarantines "k" c1SeededCache
      (fun _ => .ok { text := "fresh text" }) (fun _ => 0) {} "response").1
      { text := some "" } rfl
  · exact (c10_run_local_executor_never_quarantines "k" c1SeededCache
      (fun _ => .ok { text := "fresh text" }) (fun _ => 0) {} "judge").1
      { text := some "" } rfl
  · exact (c10_run_local_executor_never_quarantines "k" { enabled := true, entries := [] }
      (fun _ => .ok { text := "" }) (fun _ => 0) {} "response").2.1
      { text := "" } rfl rfl
  · exact (c10_run_local_executor_never_quarantines "k" c1SeededCache
      (fun _ => .ok { text := "fresh text" }) (fun _ => 0) {} "response").2.2
      { text := some "" } rfl rfl rfl


theorem rateLimiterStep_eq (interval next now : ℚ) :
    rateLimiterStep interval next now = (max now next, max now next + interval) := by
  unfold rateLimiterStep
  refine Prod.ext ?_ ?_
  · show now + max 0 (next - now) = max now next
    rcases le_total next now with h | h
    · simp [max_eq_left h, sub_nonpos.mpr h]
    · rw [max_eq_right h, max_eq_right (sub_nonneg.mpr h)]
      ring
  · show max next now + interval = max now next + interval
    rw [max_comm next now]


theorem rateLimiter_fold_chain (interval : ℚ) (times : List ℚ) (acc : List ℚ) (next : ℚ)
    (hacc : List.Chain' (fun a b => a + interval ≤ b) acc)
    (hnext : ∀ last ∈ acc.getLast?, last + interval ≤ next) :
    List.Chain' (fun a b => a + interval ≤ b)
      (times.foldl
        (fun acc now =>
          let step := rateLimiterStep interval acc.2 now
          (acc.1 ++ [step.1], step.2))
        (acc, next)).1 := by
  induction times generalizing acc next with
  | nil => exact hacc
  | cons t ts ih =>
    simp only [List.foldl_cons]
    rw [rateLimiterStep_eq]
    refine ih (acc ++ [max t next]) (max t next + interval) ?_ ?_
    · rw [List.chain'_append]
      refine ⟨hacc, List.chain'_singleton _, ?_⟩
      intro x hx y hy
      have hy' : y = max t next := by
        have h1 := hy
        rw [List.head?_cons, Option.mem_def] at h1
        exact (Option.some.inj h1).symm
      subst hy'
      calc x + interval ≤ next := hnext x hx
        _ ≤ max t next := le_max_right t next
    · intro last hlast
      have : last = max t next := by
        have h2 := hlast
        rw [List.getLast?_append] at h2
        simp only [List.getLast?_singleton] at h2
        rw [show (some (t ⊔ next)).or acc.getLast? = some (t ⊔ next) from rfl,
          Option.mem_def] at h2
        exact (Option.some.inj h2).symm
      subst this
      exact le_refl _


/-- C8: over any serialized sequence of `wait()` calls on a
`PerMinuteRateLimiter(rpm)` — `times` being the monotonic-clock readings
the callers take under the mutex, in serialization order — consecutive
admission instants are separated by at least `60/rpm` seconds: the limiter
advances its tracked next-allowed instant to `max(next_allowed, now) +
60/rpm` on each admission, and each caller only resumes at its scheduled
instant, so bursty arrival cannot push the rate above `rpm`. -/
theorem c8_rate_limiter_spacing (requests_per_minute : ℚ) (times : List ℚ) :
    List.Chain' (fun a b => a + 60 / requests_per_minute ≤ b)
      (rateLimiterAdmissions requests_per_minute times) := by
  unfold rateLimiterAdmissions
  exact rateLimiter_fold_chain (60 / requests_per_minute) times [] 0
    (List.chain'_nil) (by intro last hlast; simp at hlast)


theorem awrs_not_rubric (parsed : JudgeResult) (ex : NormalizedExample) (th : ℚ)
    (h : ex.judge_mode ≠ "rubric") :
    apply_weighted_rubric_score parsed ex th = parsed := by
  simp [apply_weighted_rubric_score, h]


theorem awrs_rubric_none (parsed : JudgeResult) (ex : NormalizedExample) (th : ℚ)
    (h : ex.rubric = none) :
    apply_weighted_rubric_score parsed ex th = parsed := by
  unfold apply_weighted_rubric_score
  rw [h]
  split <;> rfl


theorem awrs_rubric_nil (parsed : JudgeResult) (ex : NormalizedExample) (th : ℚ)
    (h : ex.rubric = some []) :
    apply_weighted_rubric_score parsed ex th = parsed := by
  unfold apply_weighted_rubric_score
  rw [h]
  split <;> simp


theorem awrs_criteria_nil (parsed : JudgeResult) (ex : NormalizedExample) (th : ℚ)
    (h : parsed.criteria = []) :
    apply_weighted_rubric_score parsed ex th = parsed := by
  unfold apply_weighted_rubric_score
  rcases hr : ex.rubric with _ | rubric
  · split <;> rfl
  · split
    · rfl
    · rcases eq_or_ne rubric [] with hnil | hnil
      · simp [hnil]
      · simp [hnil, h]


theorem awrs_matched_zero (parsed : JudgeResult) (ex : NormalizedExample) (th : ℚ)
    (rubric : List RubricCriterion) (hr : ex.rubric = some rubric)
    (h : rubricMatched parsed.criteria rubric = 0) :
    apply_weighted_rubric_score parsed ex th = parsed := by
  unfold apply_weighted_rubric_score
  rw [hr]
  dsimp only
  split
  · rfl
  · split
    · rfl
    · split
      · rfl
      · split
        · rfl
        · rename_i hcond
          exact absurd (Or.inr h) hcond


theorem awrs_active (parsed : JudgeResult) (ex : NormalizedExample) (th : ℚ)
    (rubric : List RubricCriterion) (hmode : ex.judge_mode = "rubric")
    (hr : ex.rubric = some rubric) (hrne : rubric ≠ []) (hcne : parsed.criteria ≠ [])
    (hm : rubricMatched parsed.criteria rubric ≠ 0) :
    apply_weighted_rubric_score parsed ex th =
      { parsed with
        score := rubricWeightedScore parsed.criteria rubric parsed.score,
        passed := decide (rubricWeightedScore parsed.criteria rubric parsed.score ≥ th),
        raw_aggregation := some (rubricAggTrace parsed.criteria rubric parsed.score) } := by
  unfold apply_weighted_rubric_score
  rw [hr]
  dsimp only
  rw [if_neg (by simp [hmode])]
  rw [if_neg hrne, if_neg hcne, if_neg (by
      intro hor
      rcases hor with hitems | hmz
      · have : rubric = [] := by
          have := congrArg List.length hitems
          simp [rubricWeightedItems] at this
          exact this
        exact hrne this
      · exact hm hmz)]
  rfl


/-- C2: for a rubric-mode example with a non-empty rubric, non-empty parsed
criteria and at least one matched criterion, the reported score is
`clamp((raw - min_raw) / (max_raw - min_raw), 0, 1)` with `raw` the sum of
`weight·score` over the resolved criterion scores, `min_raw`/`max_raw` the
sums of the negative/positive weight parts; when `max_raw ≤ min_raw` the
(in-range) unweighted judge score is kept; and the pass flag is
`reported score ≥ threshold`.  Concretely: `{w=2 met, w=1 unmet} → 2/3`,
`{w=8 met, w=-5 met} → 8/13`, `{w=8 met, w=-5 unmet} → 1`. -/
theorem c2_weighted_rubric_aggregation :
    (∀ (parsed : JudgeResult) (ex : NormalizedExample) (th : ℚ)
        (rubric : List RubricCriterion),
      ex.judge_mode = "rubric" → ex.rubric = some rubric → rubric ≠ [] →
      parsed.criteria ≠ [] → rubricMatched parsed.criteria rubric ≠ 0 →
      (rubricMinRaw parsed.criteria rubric < rubricMaxRaw parsed.criteria rubric →
        (apply_weighted_rubric_score parsed ex th).score =
          clamp_score_01
            ((rubricRawSum parsed.criteria rubric - rubricMinRaw parsed.criteria rubric) /
             (rubricMaxRaw parsed.criteria rubric - rubricMinRaw parsed.criteria rubric))) ∧
      (rubricMaxRaw parsed.criteria rubric ≤ rubricMinRaw parsed.criteria rubric →
        0 ≤ parsed.score → parsed.score ≤ 1 →
        (apply_weighted_rubric_score parsed ex th).score = parsed.score) ∧
      (apply_weighted_rubric_score parsed ex th).passed =
        decide ((apply_weighted_rubric_score parsed ex th).score ≥ th)) ∧
    (apply_weighted_rubric_score c2ParsedPos (c2Example c2RubricPos) (1/2)).score = 2/3 ∧
    (apply_weighted_rubric_score c2ParsedMixedMet (c2Example c2RubricMixed) (1/2)).score = 8/13 ∧
    (apply_weighted_rubric_score c2ParsedMixedUnmet (c2Example c2RubricMixed) (1/2)).score = 1 := by
  refine ⟨?_, ?_, ?_, ?_⟩
  · intro parsed ex th rubric hmode hr hrne hcne hm
    have hact := awrs_active parsed ex th rubric hmode hr hrne hcne hm
    refine ⟨?_, ?_, ?_⟩
    · intro hlt
      rw [hact]
      show rubricWeightedScore parsed.criteria rubric parsed.score = _
      unfold rubricWeightedScore
      rw [if_neg (not_le.mpr hlt)]
    · intro hle h0 h1
      rw [hact]
      show rubricWeightedScore parsed.criteria rubric parsed.score = _
      unfold rubricWeightedScore
      rw [if_pos hle]
      unfold clamp_score_01
      rw [min_eq_right h1, max_eq_right h0]
    · rw [hact]
  · have hitems : rubricWeightedItems c2ParsedPos.criteria c2RubricPos =
        [(2, 1, true), (1, 0, true)] := by decide
    have hact := awrs_active c2ParsedPos (c2Example c2RubricPos) (1/2) c2RubricPos rfl rfl
      (by decide) (by decide) (by decide)
    rw [hact]
    show rubricWeightedScore c2ParsedPos.criteria c2RubricPos c2ParsedPos.score = _
    rw [rubricWeightedScore, rubricMaxRaw, rubricMinRaw, rubricRawSum, hitems]
    norm_num [clamp_score_01]
  · have hitems : rubricWeightedItems c2ParsedMixedMet.criteria c2RubricMixed =
        [(8, 1, true), (-5, 1, true)] := by decide
    have hact := awrs_active c2ParsedMixedMet (c2Example c2RubricMixed) (1/2) c2RubricMixed
      rfl rfl (by decide) (by decide) (by decide)
    rw [hact]
    show rubricWeightedScore c2ParsedMixedMet.criteria c2RubricMixed c2ParsedMixedMet.score = _
    rw [rubricWeightedScore, rubricMaxRaw, rubricMinRaw, rubricRawSum, hitems]
    norm_num [clamp_score_01]
  · have hitems : rubricWeightedItems c2ParsedMixedUnmet.criteria c2RubricMixed =
        [(8, 1, true), (-5, 0, true)] := by decide
    have hact := awrs_active c2ParsedMixedUnmet (c2Example c2RubricMixed) (1/2) c2RubricMixed
      rfl rfl (by decide) (by decide) (by decide)
    rw [hact]
    show rubricWeightedScore c2ParsedMixedUnmet.criteria c2RubricMixed c2ParsedMixedUnmet.score = _
    rw [rubricWeightedScore, rubricMaxRaw, rubricMinRaw, rubricRawSum, hitems]
    norm_num [clamp_score_01]


/-- Closed instance of C2's general clause at the `{w=2 met, w=1 unmet}`
fixture. -/
theorem c2_witness :
    (apply_weighted_rubric_score c2ParsedPos (c2Example c2RubricPos) (1/2)).score =
      clamp_score_01
        ((rubricRawSum c2ParsedPos.criteria c2RubricPos -
            rubricMinRaw c2ParsedPos.criteria c2RubricPos) /
         (rubricMaxRaw c2ParsedPos.criteria c2RubricPos -
            rubricMinRaw c2ParsedPos.criteria c2RubricPos)) ∧
    (apply_weighted_rubric_score c2ParsedPos (c2Example c2RubricPos) (1/2)).passed =
      decide ((apply_weighted_rubric_score c2ParsedPos (c2Example c2RubricPos) (1/2)).score ≥
        (1/2 : ℚ)) := by
  have h := c2_weighted_rubric_aggregation.1 c2ParsedPos (c2Example c2RubricPos) (1/2)
    c2RubricPos rfl rfl (by decide) (by decide) (by decide)
  have hitems : rubricWeightedItems c2ParsedPos.criteria c2RubricPos =
      [(2, 1, true), (1, 0, true)] := by decide
  refine ⟨h.1 ?_, h.2.2⟩
  rw [rubricMinRaw, rubricMaxRaw, hitems]
  norm_num


/-- C9: `apply_weighted_rubric_score` is the identity on the parsed result
whenever the example is not in rubric mode, the rubric is missing or empty,
the parsed criteria map is empty, or no rubric criterion resolves against
the returned criteria — in each case the parsed result is returned
unchanged, with no score, pass flag or aggregation trace substituted. -/
theorem c9_weighted_rubric_passthrough (parsed : JudgeResult) (ex : NormalizedExample)
    (th : ℚ) :
    (ex.judge_mode ≠ "rubric" → apply_weighted_rubric_score parsed ex th = parsed) ∧
    (ex.rubric = none → apply_weighted_rubric_score parsed ex th = parsed) ∧
    (ex.rubric = some [] → apply_weighted_rubric_score parsed ex th = parsed) ∧
    (parsed.criteria = [] → apply_weighted_rubric_score parsed ex th = parsed) ∧
    (∀ rubric, ex.rubric = some rubric → rubricMatched parsed.criteria rubric = 0 →
      apply_weighted_rubric_score parsed ex th = parsed) :=
  ⟨awrs_not_rubric parsed ex th, awrs_rubric_none parsed ex th,
   awrs_rubric_nil parsed ex th, awrs_criteria_nil parsed ex th,
   fun rubric hr h => awrs_matched_zero parsed ex th rubric hr h⟩


/-- Closed instances of C9: a no-alias-match rubric result and a
non-rubric-mode result both pass through unchanged. -/
theorem c9_witness :
    apply_weighted_rubric_score c9NoMatchParsed (c2Example c2RubricPos) (1/2) =
      c9NoMatchParsed ∧
    apply_weighted_rubric_score c2ParsedPos c9McqExample (1/2) = c2ParsedPos :=
  ⟨(c9_weighted_rubric_passthrough c9NoMatchParsed (c2Example c2RubricPos) (1/2)).2.2.2.2
      c2RubricPos rfl (by decide),
   (c9_weighted_rubric_passthrough c2ParsedPos c9McqExample (1/2)).1 (by decide)⟩


theorem enforce_fail_closed_spec (r : JudgeResult) :
    (enforce_fail_closed r).parse_error = true →
      (enforce_fail_closed r).score = 0 ∧ (enforce_fail_closed r).passed = false := by
  unfold enforce_fail_closed
  by_cases h : r.parse_error
  · intro _
    simp [h]
  · intro hc
    rw [if_neg (by simp [h])] at hc
    exact absurd hc (by simp [h])


theorem build_judgment_row_fail_closed (ex : NormalizedExample) (cand jn : String)
    (r : JudgeResult) :
    (build_judgment_row ex cand jn (enforce_fail_closed r)).parse_error = true →
    (build_judgment_row ex cand jn (enforce_fail_closed r)).score = 0 ∧
    (build_judgment_row ex cand jn (enforce_fail_closed r)).pass = false := by
  intro h
  have hspec := enforce_fail_closed_spec r (by simpa [build_judgment_row] using h)
  simp [build_judgment_row, hspec.1, hspec.2]


/-- C3: every judgment row any judging strategy emits — deterministic MCQ
grading, single free-form judging (under any behaviour of the injected
policy postprocessing), multi-judge rubric aggregation, and the
judge-dispatch error boundary — satisfies: `parse_error = true` forces
`score = 0` and `pass = false`, whatever was computed upstream. -/
theorem c3_parse_error_fail_closed (ex : NormalizedExample) (cand jn : String)
    (th : ℚ) (graded parsed : JudgeResult) (postproc : JudgeResult → JudgeResult)
    (scores : List (String × ℚ)) (rats : List (String × String)) (anyPE : Bool)
    (err : String) :
    ((handle_mcq_judgment ex cand graded).parse_error = true →
      (handle_mcq_judgment ex cand graded).score = 0 ∧
      (handle_mcq_judgment ex cand graded).pass = false) ∧
    ((handle_single_judge ex cand jn th postproc parsed).parse_error = true →
      (handle_single_judge ex cand jn th postproc parsed).score = 0 ∧
      (handle_single_judge ex cand jn th postproc parsed).pass = false) ∧
    ((handle_rubric_multi_judge ex cand jn scores rats anyPE th).parse_error = true →
      (handle_rubric_multi_judge ex cand jn scores rats anyPE th).score = 0 ∧
      (handle_rubric_multi_judge ex cand jn scores rats anyPE th).pass = false) ∧
    ((build_unexpected_judge_item_result ex cand err).parse_error = true →
      (build_unexpected_judge_item_result ex cand err).score = 0 ∧
      (build_unexpected_judge_item_result ex cand err).pass = false) :=
  ⟨build_judgment_row_fail_closed ex cand "deterministic_mcq" graded,
   build_judgment_row_fail_closed ex cand jn
     (postproc (apply_weighted_rubric_score parsed ex th)),
   build_judgment_row_fail_closed ex cand jn _,
   build_judgment_row_fail_closed ex cand "judge_phase_error"
     (build_error_judge_result err "judge dispatch")⟩


/-- Closed instances of C3: all four strategies force `score = 0`,
`pass = false` on concrete parse-error inputs. -/
theorem c3_witness :
    ((handle_mcq_judgment c3Example "cand" c3ParseErrorResult).score = 0 ∧
      (handle_mcq_judgment c3Example "cand" c3ParseErrorResult).pass = false) ∧
    ((handle_single_judge c3Example "cand" "judge-1" (1/2) id c3ParseErrorResult).score = 0 ∧
      (handle_single_judge c3Example "cand" "judge-1" (1/2) id c3ParseErrorResult).pass = false) ∧
    ((handle_rubric_multi_judge c3Example "cand" "rubric_multi_judge"
        [("c1", 1)] [("c1", "ok")] true (1/2)).score = 0 ∧
      (handle_rubric_multi_judge c3Example "cand" "rubric_multi_judge"
        [("c1", 1)] [("c1", "ok")] true (1/2)).pass = false) ∧
    ((build_unexpected_judge_item_result c3Example "cand" "boom").score = 0 ∧
      (build_unexpected_judge_item_result c3Example "cand" "boom").pass = false) :=
  ⟨(c3_parse_error_fail_closed c3Example "cand" "judge-1" (1/2) c3ParseErrorResult
      c3ParseErrorResult id [("c1", 1)] [("c1", "ok")] true "boom").1 rfl,
   (c3_parse_error_fail_closed c3Example "cand" "judge-1" (1/2) c3ParseErrorResult
      c3ParseErrorResult id [("c1", 1)] [("c1", "ok")] true "boom").2.1 rfl,
   (c3_parse_error_fail_closed c3Example "cand" "rubric_multi_judge" (1/2) c3ParseErrorResult
      c3ParseErrorResult id [("c1", 1)] [("c1", "ok")] true "boom").2.2.1 rfl,
   (c3_parse_error_fail_closed c3Example "cand" "judge-1" (1/2) c3ParseErrorResult
      c3ParseErrorResult id [("c1", 1)] [("c1", "ok")] true "boom").2.2.2 rfl⟩


theorem withRetriesGo_closed {α : Type} (retry : RetryConfig)
    (outcomes : ℕ → CallOutcome α) (jitter : ℕ → ℚ) (errs : ℕ → PyExc) :
    ∀ (n a f : ℕ), n + 1 ≤ f →
    (∀ i, a ≤ i → i < a + n →
      outcomes i = .raise (errs i) ∧ is_transient_error (errs i) = true) →
    ((∀ v, outcomes (a + n) = .ok v →
        withRetriesGo outcomes jitter retry a f =
          ((List.range' a n).flatMap
              (fun i => [.before i, .call i,
                .sleep (backoffDelay retry i (errs i) (jitter i))]) ++
            [.before (a + n), .call (a + n)], .ok v)) ∧
     (∀ e, outcomes (a + n) = .raise e →
        (is_transient_error e = false ∨ f = n + 1) →
        withRetriesGo outcomes jitter retry a f =
          ((List.range' a n).flatMap
              (fun i => [.before i, .call i,
                .sleep (backoffDelay retry i (errs i) (jitter i))]) ++
            [.before (a + n), .call (a + n)], .raised e))) := by
  intro n
  induction n with
  | zero =>
    intro a f hf hfail
    obtain ⟨f', rfl⟩ : ∃ f', f = f' + 1 := ⟨f - 1, by omega⟩
    constructor
    · intro v hv
      simp only [Nat.add_zero] at hv
      simp [withRetriesGo, hv]
    · intro e he hstop
      simp only [Nat.add_zero] at he
      have hcond : f' = 0 ∨ is_transient_error e = false := by
        rcases hstop with h | h
        · exact Or.inr h
        · exact Or.inl (by omega)
      simp [withRetriesGo, he, hcond]
  | succ n ih =>
    intro a f hf hfail
    obtain ⟨f', rfl⟩ : ∃ f', f = f' + 1 := ⟨f - 1, by omega⟩
    have ha : outcomes a = .raise (errs a) ∧ is_transient_error (errs a) = true :=
      hfail a (le_refl a) (by omega)
    have hstep : withRetriesGo outcomes jitter retry a (f' + 1) =
        ([.before a, .call a,
          .sleep (backoffDelay retry a (errs a) (jitter a))] ++
          (withRetriesGo outcomes jitter retry (a + 1) f').1,
         (withRetriesGo outcomes jitter retry (a + 1) f').2) := by
      have hnotstop : ¬ (f' = 0 ∨ is_transient_error (errs a) = false) := by
        intro h
        rcases h with h | h
        · omega
        · rw [ha.2] at h
          exact absurd h (by decide)
      simp [withRetriesGo, ha.1, hnotstop]
    have ihs := ih (a + 1) f' (by omega)
      (fun i h1 h2 => hfail i (by omega) (by omega))
    have hibind : (List.range' a (n + 1)).flatMap
        (fun i => [RetryEv.before i, RetryEv.call i,
          RetryEv.sleep (backoffDelay retry i (errs i) (jitter i))]) =
        [RetryEv.before a, RetryEv.call a,
          RetryEv.sleep (backoffDelay retry a (errs a) (jitter a))] ++
        (List.range' (a + 1) n).flatMap
          (fun i => [RetryEv.before i, RetryEv.call i,
            RetryEv.sleep (backoffDelay retry i (errs i) (jitter i))]) := by
      rw [List.range'_succ]
      rfl
    constructor
    · intro v hv
      have hv' : outcomes (a + 1 + n) = .ok v := by
        rw [show a + 1 + n = a + (n + 1) by omega]
        exact hv
      have := ihs.1 v hv'
      rw [hstep, this, hibind]
      simp only [List.append_assoc, Prod.mk.injEq, List.cons_append, List.nil_append]
      constructor
      · rw [show a + 1 + n = a + (n + 1) by omega]
      · trivial
    · intro e he hstop
      have he' : outcomes (a + 1 + n) = .raise e := by
        rw [show a + 1 + n = a + (n + 1) by omega]
        exact he
      have hstop' : is_transient_error e = false ∨ f' = n + 1 := by
        rcases hstop with h | h
        · exact Or.inl h
        · exact Or.inr (by omega)
      have := ihs.2 e he' hstop'
      rw [hstep, this, hibind]
      simp only [List.append_assoc, Prod.mk.injEq, List.cons_append, List.nil_append]
      constructor
      · rw [show a + 1 + n = a + (n + 1) by omega]
      · trivial


/-- C7: `with_retries` fires `before_attempt` exactly once before every
attempt including the first (each attempt `i` contributes the event pair
`before i, call i` and nothing else precedes it); a fatal (non-transient)
error or an error on the last allowed attempt is re-raised with no sleep
after it; and each transient failure with attempts remaining sleeps
`backoffDelay` — `min(max_delay, retry_after_hint)` when the error carries
a retry-after duration (attribute, response header, or regex-extracted
from the message), else `min(max_delay, base_delay·2^(attempt-1))` plus the
jitter sampled from `[0, min(0.5, base_delay)]`. -/
theorem c7_with_retries_trace {α : Type} (retry : RetryConfig)
    (outcomes : ℕ → CallOutcome α) (jitter : ℕ → ℚ) (errs : ℕ → PyExc) (k : ℕ)
    (hk1 : 1 ≤ k) (hkM : k ≤ retry.max_attempts)
    (hfail : ∀ i, 1 ≤ i → i < k →
      outcomes i = .raise (errs i) ∧ is_transient_error (errs i) = true)
    (hjit : ∀ n, 0 ≤ jitter n ∧ jitter n ≤ min (1/2 : ℚ) retry.base_delay_s) :
    (∀ v, outcomes k = .ok v →
      with_retries outcomes jitter retry =
        ((List.range' 1 (k - 1)).flatMap
            (fun i => [.before i, .call i,
              .sleep (backoffDelay retry i (errs i) (jitter i))]) ++
          [.before k, .call k], .ok v)) ∧
    (∀ e, outcomes k = .raise e →
      (is_transient_error e = false ∨ k = retry.max_attempts) →
      with_retries outcomes jitter retry =
        ((List.range' 1 (k - 1)).flatMap
            (fun i => [.before i, .call i,
              .sleep (backoffDelay retry i (errs i) (jitter i))]) ++
          [.before k, .call k], .raised e)) := by
  have h1k : 1 + (k - 1) = k := by omega
  have hmain := withRetriesGo_closed retry outcomes jitter errs (k - 1) 1
    retry.max_attempts (by omega) (fun i hi1 hi2 => hfail i hi1 (by omega))
  rw [h1k] at hmain
  constructor
  · intro v hv
    exact hmain.1 v hv
  · intro e he hstop
    refine hmain.2 e he ?_
    rcases hstop with h | h
    · exact Or.inl h
    · exact Or.inr (by omega)


/-- Closed instance of C7: one transient failure then success produces
exactly hook–call–sleep–hook–call, with the documented backoff delay. -/
theorem c7_witness :
    with_retries c7Outcomes (fun _ => 1/4) c7Retry =
      ([.before 1, .call 1, .sleep (backoffDelay c7Retry 1 c7Err (1/4)),
        .before 2, .call 2], .ok 42) ∧
    backoffDelay c7Retry 1 c7Err (1/4) = 5/4 := by
  constructor
  · exact (c7_with_retries_trace c7Retry c7Outcomes (fun _ => 1/4) (fun _ => c7Err) 2
      (by norm_num) (by norm_num [c7Retry])
      (fun i h1 h2 => by
        have : i = 1 := by omega
        subst this
        exact ⟨rfl, by decide⟩)
      (fun n => by norm_num [c7Retry])).1 42 rfl
  · have hnone : extract_retry_after_seconds c7Err = none := by decide
    unfold backoffDelay
    rw [hnone]
    norm_num [c7Retry]


theorem pyDictGet_cons {κ α : Type} [DecidableEq κ] (k' : κ) (v' : α)
    (rest : List (κ × α)) (j : κ) :
    pyDictGet ((k', v') :: rest) j = if k' = j then some v' else pyDictGet rest j := by
  unfold pyDictGet
  rw [List.find?_cons]
  by_cases h : k' = j
  · simp [h]
  · simp [h]


theorem pyDictGet_insert {κ α : Type} [DecidableEq κ] (k : κ) (v : α)
    (d : List (κ × α)) (j : κ) :
    pyDictGet (pyDictInsert k v d) j = if j = k then some v else pyDictGet d j := by
  induction d with
  | nil =>
    rw [show pyDictInsert k v ([] : List (κ × α)) = [(k, v)] from rfl, pyDictGet_cons]
    rcases eq_or_ne k j with h | h
    · subst h
      simp
    · simp [h, Ne.symm h]
  | cons p rest ih =>
    obtain ⟨k', v'⟩ := p
    rw [show pyDictInsert k v ((k', v') :: rest) =
        (if k = k' then (k, v) :: rest else (k', v') :: pyDictInsert k v rest) from rfl]
    by_cases hk : k = k'
    · rw [if_pos hk]
      subst hk
      rw [pyDictGet_cons, pyDictGet_cons]
      rcases eq_or_ne k j with h | h
      · subst h
        simp
      · simp [h, Ne.symm h]
    · rw [if_neg hk, pyDictGet_cons, pyDictGet_cons]
      rcases eq_or_ne k' j with h | h
      · subst h
        rw [if_pos rfl, if_pos rfl, if_neg (fun hh => hk hh.symm)]
      · rw [if_neg h, if_neg h, ih]


theorem pyDictGet_foldl_eval {ρ : Type} (eval : ℕ → ρ) (completions : List ℕ) :
    ∀ (d : List (ℕ × ρ)) (j : ℕ),
      pyDictGet (completions.foldl (fun d i => pyDictInsert i (eval i) d) d) j =
        if j ∈ completions then some (eval j) else pyDictGet d j := by
  induction completions with
  | nil => intro d j; simp
  | cons c cs ih =>
    intro d j
    rw [List.foldl_cons, ih]
    by_cases hcs : j ∈ cs
    · simp [hcs]
    · by_cases hc : j = c
      · subst hc
        simp [hcs, pyDictGet_insert]
      · simp [hcs, hc, pyDictGet_insert]


theorem foldl_collect_rows {ρ : Type} (f : GenItem ρ → Option JudgmentRow) :
    ∀ (gen : List (GenItem ρ)) (acc : List JudgmentRow),
      gen.foldl
        (fun rows g => match f g with | none => rows | some row => rows ++ [row]) acc =
      acc ++ gen.filterMap f := by
  intro gen
  induction gen with
  | nil => intro acc; simp
  | cons g gs ih =>
    intro acc
    rw [List.foldl_cons, List.filterMap_cons]
    cases hf : f g with
    | none =>
      dsimp only
      exact ih acc
    | some row =>
      dsimp only
      rw [ih (acc ++ [row])]
      simp


theorem filterMap_all_some {ρ : Type} (f : GenItem ρ → Option JudgmentRow)
    (g : GenItem ρ → JudgmentRow) :
    ∀ (l : List (GenItem ρ)), (∀ x ∈ l, f x = some (g x)) →
      l.filterMap f = l.map g := by
  intro l
  induction l with
  | nil => intro _; simp
  | cons x xs ih =>
    intro h
    rw [List.filterMap_cons, h x (List.mem_cons_self x xs), List.map_cons,
      ih (fun y hy => h y (List.mem_cons_of_mem x hy))]


theorem run_judge_phase_rows_eq {ρ : Type} (generation_results : List (GenItem ρ))
    (eval : ℕ → JudgmentRow) (completions : List ℕ)
    (hcover : ∀ g ∈ generation_results, g.display_index ∈ completions) :
    run_judge_phase_rows generation_results eval completions =
      generation_results.map (fun g => eval g.display_index) := by
  unfold run_judge_phase_rows
  rw [foldl_collect_rows]
  rw [filterMap_all_some _ (fun g => eval g.display_index) generation_results
    (fun g hg => by rw [pyDictGet_foldl_eval eval completions [] g.display_index,
      if_pos (hcover g hg)])]
  simp


theorem plan_inner_loop {κ ε : Type} (c : κ) (es : List ε) :
    ∀ (acc : List (ℕ × κ × ε)) (idx : ℕ),
      es.foldl
        (fun (acc2 : List (ℕ × κ × ε) × ℕ) e =>
          (acc2.1 ++ [(acc2.2 + 1, c, e)], acc2.2 + 1))
        (acc, idx) =
      (acc ++ (List.range' (idx + 1) es.length).zip (es.map (fun e => (c, e))),
       idx + es.length) := by
  induction es with
  | nil => intro acc idx; simp
  | cons e es ih =>
    intro acc idx
    rw [List.foldl_cons, ih]
    simp only [List.length_cons, List.map_cons, List.range'_succ, List.zip_cons_cons,
      Prod.mk.injEq]
    constructor
    · simp
    · omega


theorem plan_outer_loop {κ ε : Type} (es : List ε) :
    ∀ (cs : List κ) (acc : List (ℕ × κ × ε)) (idx : ℕ),
      cs.foldl
        (fun (acc : List (ℕ × κ × ε) × ℕ) c =>
          es.foldl
            (fun (acc2 : List (ℕ × κ × ε) × ℕ) e =>
              (acc2.1 ++ [(acc2.2 + 1, c, e)], acc2.2 + 1))
            acc)
        (acc, idx) =
      (acc ++ (List.range' (idx + 1) (cs.length * es.length)).zip
          (cs.flatMap (fun c => es.map (fun e => (c, e)))),
       idx + cs.length * es.length) := by
  intro cs
  induction cs with
  | nil => intro acc idx; simp
  | cons c cs ih =>
    intro acc idx
    rw [List.foldl_cons, plan_inner_loop, ih, Prod.mk.injEq]
    have hlen : (List.range' (idx + 1) es.length).length =
        (List.map (fun e => (c, e)) es).length := by
      simp
    have hsplit := List.range'_append (idx + 1) es.length (cs.length * es.length) 1
    rw [one_mul, Nat.add_comm (cs.length * es.length) es.length] at hsplit
    constructor
    · rw [List.flatMap_cons,
        show (c :: cs).length * es.length = es.length + cs.length * es.length by
          simp [List.length_cons, Nat.succ_mul, Nat.add_comm],
        ← hsplit, List.zip_append hlen, List.append_assoc,
        show idx + es.length + 1 = idx + 1 + es.length by omega]
    · simp only [List.length_cons]
      ring


theorem plan_generation_tasks_eq {κ ε : Type} (cs : List κ) (es : List ε) :
    plan_generation_tasks cs es =
      ((List.range' 1 (cs.length * es.length)).zip
        (cs.flatMap (fun c => es.map (fun e => (c, e)))),
       cs.length * es.length) := by
  unfold plan_generation_tasks
  rw [plan_outer_loop]
  simp


theorem pairwise_lt_of_le_nodup {ρ : Type} (l : List (GenItem ρ))
    (hle : l.Pairwise (fun a b => a.display_index ≤ b.display_index))
    (hnd : (l.map (fun g => g.display_index)).Nodup) :
    l.Pairwise (fun a b => a.display_index < b.display_index) := by
  have hne : l.Pairwise (fun a b => a.display_index ≠ b.display_index) :=
    List.pairwise_map.mp hnd
  exact (hle.and hne).imp (fun h => lt_of_le_of_ne h.1 h.2)


theorem generation_rows_canonical {ρ : Type} (results results' : List (GenItem ρ))
    (hperm : results.Perm results')
    (hnd : (results.map (fun g => g.display_index)).Nodup) :
    generation_responses_rows results = generation_responses_rows results' := by
  unfold generation_responses_rows
  congr 1
  have htot : ∀ x y : GenItem ρ,
      decide (x.display_index ≤ y.display_index) = true ∨
      decide (y.display_index ≤ x.display_index) = true := by
    intro x y
    rcases Nat.le_total x.display_index y.display_index with h | h
    · exact Or.inl (decide_eq_true h)
    · exact Or.inr (decide_eq_true h)
  have htrans : ∀ x y z : GenItem ρ,
      decide (x.display_index ≤ y.display_index) = true →
      decide (y.display_index ≤ z.display_index) = true →
      decide (x.display_index ≤ z.display_index) = true := by
    intro x y z h1 h2
    exact decide_eq_true (le_trans (of_decide_eq_true h1) (of_decide_eq_true h2))
  have hs1 := sortLe_pairwise (fun a b : GenItem ρ =>
    decide (a.display_index ≤ b.display_index)) htot htrans results
  have hs2 := sortLe_pairwise (fun a b : GenItem ρ =>
    decide (a.display_index ≤ b.display_index)) htot htrans results'
  have hp1 := sortLe_perm (fun a b : GenItem ρ =>
    decide (a.display_index ≤ b.display_index)) results
  have hp2 := sortLe_perm (fun a b : GenItem ρ =>
    decide (a.display_index ≤ b.display_index)) results'
  have hle1 := hs1.imp (fun h => of_decide_eq_true h)
  have hle2 := hs2.imp (fun h => of_decide_eq_true h)
  have hnd1 : ((sortLe (fun a b : GenItem ρ =>
      decide (a.display_index ≤ b.display_index)) results).map
        (fun g => g.display_index)).Nodup :=
    ((hp1.map (fun g => g.display_index)).nodup_iff).mpr hnd
  have hnd' : (results'.map (fun g => g.display_index)).Nodup :=
    ((hperm.map (fun g => g.display_index)).nodup_iff).mp hnd
  have hnd2 : ((sortLe (fun a b : GenItem ρ =>
      decide (a.display_index ≤ b.display_index)) results').map
        (fun g => g.display_index)).Nodup :=
    ((hp2.map (fun g => g.display_index)).nodup_iff).mpr hnd'
  have hlt1 := pairwise_lt_of_le_nodup _ hle1 hnd1
  have hlt2 := pairwise_lt_of_le_nodup _ hle2 hnd2
  have hperm12 := (hp1.trans hperm).trans hp2.symm
  exact @List.eq_of_perm_of_sorted (GenItem ρ)
    (fun a b => a.display_index < b.display_index)
    ⟨fun a b hab hba => absurd hba (not_lt.mpr (le_of_lt hab))⟩
    _ _ hperm12 hlt1 hlt2


/-- C6: `_plan_generation_tasks` assigns display indices 1..N in
candidate-major, example-minor order; the generation phase's response rows
are the sorted-by-display-index rows and do not depend on which of two
completion orders produced the result list; `run_judge_phase`'s judgment
rows follow the generation-results order (hence display-index order)
independently of the completion order; and for 2 candidates × 2 examples
the judgment rows come out keyed (A,ex1),(A,ex2),(B,ex1),(B,ex2) under any
completion order. -/
theorem c6_display_index_ordering :
    (∀ {κ ε : Type} (cs : List κ) (es : List ε),
      plan_generation_tasks cs es =
        ((List.range' 1 (cs.length * es.length)).zip
          (cs.flatMap (fun c => es.map (fun e => (c, e)))),
         cs.length * es.length)) ∧
    (∀ {ρ : Type} (results : List (GenItem ρ)),
      (sortLe (fun a b => decide (a.display_index ≤ b.display_index)) results).Pairwise
        (fun a b => a.display_index ≤ b.display_index)) ∧
    (∀ {ρ : Type} (results results' : List (GenItem ρ)),
      results.Perm results' → (results.map (fun g => g.display_index)).Nodup →
      generation_responses_rows results = generation_responses_rows results') ∧
    (∀ {ρ : Type} (gen : List (GenItem ρ)) (eval : ℕ → JudgmentRow)
        (completions : List ℕ),
      completions.Perm (gen.map (fun g => g.display_index)) →
      run_judge_phase_rows gen eval completions =
        gen.map (fun g => eval g.display_index)) ∧
    (∀ completions : List ℕ, completions.Perm [1, 2, 3, 4] →
      (run_judge_phase_rows c6GenResults c6Eval completions).map
          (fun r => (r.candidate_name, r.example_id)) =
        [("A", "ex1"), ("A", "ex2"), ("B", "ex1"), ("B", "ex2")]) := by
  refine ⟨?_, ?_, ?_, ?_, ?_⟩
  · intro κ ε cs es
    exact plan_generation_tasks_eq cs es
  · intro ρ results
    have htot : ∀ x y : GenItem ρ,
        decide (x.display_index ≤ y.display_index) = true ∨
        decide (y.display_index ≤ x.display_index) = true := by
      intro x y
      rcases Nat.le_total x.display_index y.display_index with h | h
      · exact Or.inl (decide_eq_true h)
      · exact Or.inr (decide_eq_true h)
    have htrans : ∀ x y z : GenItem ρ,
        decide (x.display_index ≤ y.display_index) = true →
        decide (y.display_index ≤ z.display_index) = true →
        decide (x.display_index ≤ z.display_index) = true := by
      intro x y z h1 h2
      exact decide_eq_true (le_trans (of_decide_eq_true h1) (of_decide_eq_true h2))
    exact (sortLe_pairwise _ htot htrans results).imp (fun h => of_decide_eq_true h)
  · intro ρ results results' hperm hnd
    exact generation_rows_canonical results results' hperm hnd
  · intro ρ gen eval completions hperm
    refine run_judge_phase_rows_eq gen eval completions ?_
    intro g hg
    exact hperm.mem_iff.mpr (List.mem_map_of_mem (fun g => g.display_index) hg)
  · intro completions hperm
    have h := run_judge_phase_rows_eq c6GenResults c6Eval completions
      (fun g hg => hperm.mem_iff.mpr (by
        have : (c6GenResults.map (fun g => g.display_index)) = [1, 2, 3, 4] := by decide
        rw [← this]
        exact List.mem_map_of_mem (fun g => g.display_index) hg))
    rw [h]
    decide


/-- Closed instance of C6: an out-of-order completion sequence still yields
candidate-major judgment rows, and the 2×2 plan is assigned indices 1–4. -/
theorem c6_witness :
    (run_judge_phase_rows c6GenResults c6Eval [3, 1, 4, 2]).map
        (fun r => (r.candidate_name, r.example_id)) =
      [("A", "ex1"), ("A", "ex2"), ("B", "ex1"), ("B", "ex2")] ∧
    plan_generation_tasks ["A", "B"] ["ex1", "ex2"] =
      ([(1, "A", "ex1"), (2, "A", "ex2"), (3, "B", "ex1"), (4, "B", "ex2")], 4) := by
  constructor
  · exact c6_display_index_ordering.2.2.2.2 [3, 1, 4, 2] (by decide)
  · exact c6_display_index_ordering.1 ["A", "B"] ["ex1", "ex2"]


theorem pyCmpChars_eq_iff : ∀ (a b : List Char), pyCmpChars a b = .eq ↔ a = b := by
  intro a
  induction a with
  | nil =>
    intro b
    cases b with
    | nil => simp [pyCmpChars]
    | cons y ys => simp [pyCmpChars]
  | cons x xs ih =>
    intro b
    cases b with
    | nil => simp [pyCmpChars]
    | cons y ys =>
      unfold pyCmpChars
      by_cases h1 : x.toNat < y.toNat
      · simp only [h1, if_pos]
        constructor
        · intro hc
          exact absurd hc (by decide)
        · intro hc
          injection hc with hxy hrest
          exact absurd (hxy ▸ h1) (lt_irrefl _)
      · by_cases h2 : y.toNat < x.toNat
        · simp only [h1, h2, if_neg, if_pos, not_false_iff]
          constructor
          · intro hc
            exact absurd hc (by decide)
          · intro hc
            have hxy : x = y := by
              injection hc
            exact absurd (hxy ▸ h2) (lt_irrefl _)
        · have hx : x = y := Char.ext (UInt32.ext
            (Nat.le_antisymm (Nat.le_of_not_lt h2) (Nat.le_of_not_lt h1)))
          subst hx
          simp only [h1, h2, if_neg, not_false_iff]
          rw [ih ys]
          constructor
          · intro hc
            rw [hc]
          · intro hc
            injection hc


theorem pyCmpChars_swap : ∀ a b : List Char, pyCmpChars b a = (pyCmpChars a b).swap := by
  intro a
  induction a with
  | nil =>
    intro b
    cases b with
    | nil => rfl
    | cons y ys => rfl
  | cons x xs ih =>
    intro b
    cases b with
    | nil => rfl
    | cons y ys =>
      show (if y.toNat < x.toNat then Ordering.lt
            else if x.toNat < y.toNat then Ordering.gt else pyCmpChars ys xs) =
           (if x.toNat < y.toNat then Ordering.lt
            else if y.toNat < x.toNat then Ordering.gt else pyCmpChars xs ys).swap
      by_cases h1 : x.toNat < y.toNat
      · have h1' : ¬ y.toNat < x.toNat := by omega
        simp only [h1, h1', if_true, if_false]
        rfl
      · by_cases h2 : y.toNat < x.toNat
        · simp only [h1, h2, if_true, if_false]
          rfl
        · simp only [h1, h2, if_false]
          exact ih ys


theorem pyCmpChars_lt_trans :
    ∀ a b c : List Char, pyCmpChars a b = .lt → pyCmpChars b c = .lt →
      pyCmpChars a c = .lt := by
  intro a
  induction a with
  | nil =>
    intro b c hab hbc
    cases b with
    | nil => simp [pyCmpChars] at hab
    | cons y ys =>
      cases c with
      | nil => simp [pyCmpChars] at hbc
      | cons z zs => rfl
  | cons x xs ih =>
    intro b c hab hbc
    cases b with
    | nil => simp [pyCmpChars] at hab
    | cons y ys =>
      cases c with
      | nil => simp [pyCmpChars] at hbc
      | cons z zs =>
        rw [show pyCmpChars (x :: xs) (y :: ys) =
            (if x.toNat < y.toNat then Ordering.lt
             else if y.toNat < x.toNat then Ordering.gt else pyCmpChars xs ys) from rfl] at hab
        rw [show pyCmpChars (y :: ys) (z :: zs) =
            (if y.toNat < z.toNat then Ordering.lt
             else if z.toNat < y.toNat then Ordering.gt else pyCmpChars ys zs) from rfl] at hbc
        rw [show pyCmpChars (x :: xs) (z :: zs) =
            (if x.toNat < z.toNat then Ordering.lt
             else if z.toNat < x.toNat then Ordering.gt else pyCmpChars xs zs) from rfl]
        by_cases hxy : x.toNat < y.toNat
        · by_cases hyz : y.toNat < z.toNat
          · rw [if_pos (by omega)]
          · rw [if_neg hyz] at hbc
            by_cases hzy : z.toNat < y.toNat
            · rw [if_pos hzy] at hbc
              exact absurd hbc (by decide)
            · rw [if_pos (by omega)]
        · rw [if_neg hxy] at hab
          by_cases hyx : y.toNat < x.toNat
          · rw [if_pos hyx] at hab
            exact absurd hab (by decide)
          · rw [if_neg hyx] at hab
            by_cases hyz : y.toNat < z.toNat
            · rw [if_pos (by omega)]
            · rw [if_neg hyz] at hbc
              by_cases hzy : z.toNat < y.toNat
              · rw [if_pos hzy] at hbc
                exact absurd hbc (by decide)
              · rw [if_neg hzy] at hbc
                rw [if_neg (by omega), if_neg (by omega)]
                exact ih ys zs hab hbc


theorem rowKeyCmp_def (a1 a2 a3 b1 b2 b3 : String) :
    rowKeyCmp (a1, a2, a3) (b1, b2, b3) =
      match pyCmpChars a1.data b1.data with
      | .lt => .lt
      | .gt => .gt
      | .eq =>
        match pyCmpChars a2.data b2.data with
        | .lt => .lt
        | .gt => .gt
        | .eq => pyCmpChars a3.data b3.data := rfl


theorem pyStrCmp_eq_iff (s t : String) : pyCmpChars s.data t.data = .eq ↔ s = t := by
  constructor
  · intro h
    exact String.ext ((pyCmpChars_eq_iff _ _).mp h)
  · intro h
    subst h
    exact (pyCmpChars_eq_iff _ _).mpr rfl


theorem rowKeyCmp_eq_iff (a b : RowKey) : rowKeyCmp a b = .eq ↔ a = b := by
  obtain ⟨a1, a2, a3⟩ := a
  obtain ⟨b1, b2, b3⟩ := b
  rw [rowKeyCmp_def]
  constructor
  · intro h
    rcases h1 : pyCmpChars a1.data b1.data with _ | _ | _ <;> rw [h1] at h
    · simp at h
    · rcases h2 : pyCmpChars a2.data b2.data with _ | _ | _ <;> rw [h2] at h
      · simp at h
      · have e1 := (pyStrCmp_eq_iff a1 b1).mp h1
        have e2 := (pyStrCmp_eq_iff a2 b2).mp h2
        have e3 := (pyStrCmp_eq_iff a3 b3).mp (by simpa using h)
        simp [e1, e2, e3]
      · simp at h
    · simp at h
  · intro h
    injection h with e1 h'
    injection h' with e2 e3
    subst e1; subst e2; subst e3
    rw [(pyCmpChars_eq_iff a1.data a1.data).mpr rfl]
    rw [(pyCmpChars_eq_iff a2.data a2.data).mpr rfl]
    rw [(pyCmpChars_eq_iff a3.data a3.data).mpr rfl]


theorem rowKeyCmp_swap (a b : RowKey) : rowKeyCmp b a = (rowKeyCmp a b).swap := by
  obtain ⟨a1, a2, a3⟩ := a
  obtain ⟨b1, b2, b3⟩ := b
  rw [rowKeyCmp_def, rowKeyCmp_def, pyCmpChars_swap a1.data b1.data,
    pyCmpChars_swap a2.data b2.data, pyCmpChars_swap a3.data b3.data]
  rcases h1 : pyCmpChars a1.data b1.data with _ | _ | _ <;>
    rcases h2 : pyCmpChars a2.data b2.data with _ | _ | _ <;>
      rcases h3 : pyCmpChars a3.data b3.data with _ | _ | _ <;>
        simp only [h1, h2, h3] <;> rfl


theorem rowKeyCmp_lt_trans (a b c : RowKey) (hab : rowKeyCmp a b = .lt)
    (hbc : rowKeyCmp b c = .lt) : rowKeyCmp a c = .lt := by
  obtain ⟨a1, a2, a3⟩ := a
  obtain ⟨b1, b2, b3⟩ := b
  obtain ⟨c1, c2, c3⟩ := c
  rw [rowKeyCmp_def] at hab hbc ⊢
  rcases h1 : pyCmpChars a1.data b1.data with _ | _ | _ <;> rw [h1] at hab
  · rcases h2 : pyCmpChars b1.data c1.data with _ | _ | _ <;> rw [h2] at hbc
    · rw [pyCmpChars_lt_trans _ _ _ h1 h2]
    · have e := (pyStrCmp_eq_iff b1 c1).mp h2
      subst e
      rw [h1]
    · simp at hbc
  · have e := (pyStrCmp_eq_iff a1 b1).mp h1
    subst e
    dsimp only at hab
    cases h2 : pyCmpChars a1.data c1.data with
    | lt => rfl
    | eq =>
      rw [h2] at hbc
      dsimp only at hbc ⊢
      rcases h3 : pyCmpChars a2.data b2.data with _ | _ | _ <;> rw [h3] at hab
      · rcases h4 : pyCmpChars b2.data c2.data with _ | _ | _ <;> rw [h4] at hbc
        · rw [pyCmpChars_lt_trans _ _ _ h3 h4]
        · have e2 := (pyStrCmp_eq_iff b2 c2).mp h4
          subst e2
          rw [h3]
        · simp at hbc
      · have e2 := (pyStrCmp_eq_iff a2 b2).mp h3
        subst e2
        dsimp only at hab
        cases h4 : pyCmpChars a2.data c2.data with
        | lt => rfl
        | eq =>
          rw [h4] at hbc
          dsimp only at hbc ⊢
          rw [pyCmpChars_lt_trans _ _ _ hab hbc]
        | gt =>
          rw [h4] at hbc
          simp at hbc
      · simp at hab
    | gt =>
      rw [h2] at hbc
      simp at hbc
  · simp at hab


theorem rowKeyLe_total (a b : RowKey) : rowKeyLe a b = true ∨ rowKeyLe b a = true := by
  unfold rowKeyLe
  rcases h : rowKeyCmp a b with _ | _ | _
  · left
    rfl
  · left
    rfl
  · right
    rw [rowKeyCmp_swap a b, h]
    rfl


theorem rowKeyLe_trans (a b c : RowKey) (hab : rowKeyLe a b = true)
    (hbc : rowKeyLe b c = true) : rowKeyLe a c = true := by
  unfold rowKeyLe at hab hbc ⊢
  rcases h1 : rowKeyCmp a b with _ | _ | _ <;> rw [h1] at hab
  · rcases h2 : rowKeyCmp b c with _ | _ | _ <;> rw [h2] at hbc
    · rw [rowKeyCmp_lt_trans a b c h1 h2]
      rfl
    · have e : b = c := (rowKeyCmp_eq_iff b c).mp h2
      subst e
      rw [h1]
      rfl
    · exact absurd hbc (by decide)
  · have e : a = b := (rowKeyCmp_eq_iff a b).mp h1
    subst e
    exact hbc
  · exact absurd hab (by decide)


theorem rowKeyLt_of_le_of_ne (a b : RowKey) (hle : rowKeyLe a b = true) (hne : a ≠ b) :
    rowKeyLt a b = true := by
  unfold rowKeyLe at hle
  unfold rowKeyLt
  rcases h : rowKeyCmp a b with _ | _ | _
  · rfl
  · exact absurd ((rowKeyCmp_eq_iff a b).mp h) hne
  · rw [h] at hle
    exact absurd hle (by decide)


theorem option_some_or {β : Type} (a : β) (x : Option β) : (some a).or x = some a := rfl


theorem option_none_or {β : Type} (x : Option β) : (Option.none).or x = x := rfl


theorem option_or_none {β : Type} (x : Option β) : x.or none = x := by
  cases x <;> rfl


theorem option_or_assoc {β : Type} (a b c : Option β) :
    (a.or b).or c = a.or (b.or c) := by
  cases a <;> rfl


theorem findQ_append {β : Type} (p : β → Bool) :
    ∀ l₁ l₂ : List β, (l₁ ++ l₂).find? p = (l₁.find? p).or (l₂.find? p) := by
  intro l₁
  induction l₁ with
  | nil => intro l₂; rfl
  | cons a l ih =>
    intro l₂
    rw [List.cons_append, List.find?_cons, List.find?_cons]
    cases hp : p a
    · simp only [cond_false, ih, option_none_or]
    · simp only [cond_true, option_some_or]


theorem pyDictMem_iff {κ α : Type} [DecidableEq κ] (k : κ) (d : List (κ × α)) :
    pyDictMem k d = true ↔ k ∈ d.map Prod.fst := by
  simp [pyDictMem, List.any_eq_true, List.mem_map]


theorem pyDictInsert_keys {κ α : Type} [DecidableEq κ] (k : κ) (v : α) (d : List (κ × α)) :
    (pyDictInsert k v d).map Prod.fst =
      if k ∈ d.map Prod.fst then d.map Prod.fst else d.map Prod.fst ++ [k] := by
  induction d with
  | nil => simp [pyDictInsert]
  | cons p rest ih =>
    obtain ⟨k', v'⟩ := p
    by_cases h : k = k'
    · subst h
      simp [pyDictInsert]
    · rw [show pyDictInsert k v ((k', v') :: rest) = (k', v') :: pyDictInsert k v rest by
        simp [pyDictInsert, h]]
      simp only [List.map_cons, ih, List.mem_cons]
      by_cases hm : k ∈ rest.map Prod.fst
      · simp [hm, h]
      · simp [hm, h]


theorem pyDictInsert_keys_nodup {κ α : Type} [DecidableEq κ] (k : κ) (v : α)
    (d : List (κ × α)) (h : (d.map Prod.fst).Nodup) :
    ((pyDictInsert k v d).map Prod.fst).Nodup := by
  rw [pyDictInsert_keys]
  by_cases hm : k ∈ d.map Prod.fst
  · rw [if_pos hm]; exact h
  · rw [if_neg hm]
    exact List.Nodup.append h (List.nodup_singleton k)
      (fun x hx hxk => hm ((List.mem_singleton.mp hxk) ▸ hx))


theorem mem_pyDictInsert {κ α : Type} [DecidableEq κ] (k : κ) (v : α) :
    ∀ (d : List (κ × α)) (p : κ × α), p ∈ pyDictInsert k v d → p ∈ d ∨ p = (k, v) := by
  intro d
  induction d with
  | nil =>
    intro p hp
    simp [pyDictInsert] at hp
    exact Or.inr hp
  | cons q rest ih =>
    obtain ⟨k', v'⟩ := q
    intro p hp
    by_cases h : k = k'
    · subst h
      rw [show pyDictInsert k v ((k, v') :: rest) = (k, v) :: rest by
        simp [pyDictInsert]] at hp
      rcases List.mem_cons.mp hp with h1 | h1
      · exact Or.inr h1
      · exact Or.inl (List.mem_cons_of_mem _ h1)
    · rw [show pyDictInsert k v ((k', v') :: rest) = (k', v') :: pyDictInsert k v rest by
        simp [pyDictInsert, h]] at hp
      rcases List.mem_cons.mp hp with h1 | h1
      · exact Or.inl (h1 ▸ List.mem_cons_self _ _)
      · rcases ih p h1 with h2 | h2
        · exact Or.inl (List.mem_cons_of_mem _ h2)
        · exact Or.inr h2


theorem pyDictMem_insert_ne {κ α : Type} [DecidableEq κ] (j k : κ) (v : α)
    (d : List (κ × α)) (h : j ≠ k) :
    pyDictMem j (pyDictInsert k v d) = pyDictMem j d := by
  cases hb : pyDictMem j d
  · cases hb2 : pyDictMem j (pyDictInsert k v d)
    · rfl
    · exfalso
      have hj := (pyDictMem_iff j _).mp hb2
      rw [pyDictInsert_keys] at hj
      by_cases hm : k ∈ d.map Prod.fst
      · rw [if_pos hm] at hj
        have h2 := (pyDictMem_iff j d).mpr hj
        rw [hb] at h2
        exact absurd h2 (by decide)
      · rw [if_neg hm] at hj
        rcases List.mem_append.mp hj with hj1 | hj1
        · have h2 := (pyDictMem_iff j d).mpr hj1
          rw [hb] at h2
          exact absurd h2 (by decide)
        · exact h (List.mem_singleton.mp hj1)
  · cases hb2 : pyDictMem j (pyDictInsert k v d)
    · exfalso
      have hj := (pyDictMem_iff j d).mp hb
      have hmem : j ∈ (pyDictInsert k v d).map Prod.fst := by
        rw [pyDictInsert_keys]
        by_cases hm : k ∈ d.map Prod.fst
        · rw [if_pos hm]; exact hj
        · rw [if_neg hm]; exact List.mem_append.mpr (Or.inl hj)
      have h2 := (pyDictMem_iff j _).mpr hmem
      rw [hb2] at h2
      exact absurd h2 (by decide)
    · rfl


theorem pyDictGet_mem_keys {κ α : Type} [DecidableEq κ] (d : List (κ × α)) (k : κ) :
    (∃ r, pyDictGet d k = some r) ↔ k ∈ d.map Prod.fst := by
  induction d with
  | nil => simp [pyDictGet]
  | cons p rest ih =>
    obtain ⟨k', v'⟩ := p
    by_cases h : k' = k
    · simp [pyDictGet_cons, h]
    · rw [pyDictGet_cons, if_neg h, List.map_cons, List.mem_cons]
      constructor
      · intro hx
        exact Or.inr (ih.mp hx)
      · rintro (he | hm)
        · exact absurd he.symm h
        · exact ih.mpr hm


theorem pyDictGet_some_mem {κ α : Type} [DecidableEq κ] (d : List (κ × α)) (k : κ)
    (r : α) (h : pyDictGet d k = some r) : (k, r) ∈ d := by
  unfold pyDictGet at h
  cases hf : d.find? (fun p => decide (p.1 = k)) with
  | none =>
    rw [hf] at h
    simp at h
  | some p =>
    rw [hf] at h
    have hm := List.mem_of_find?_eq_some hf
    have hp := List.find?_some hf
    simp only [decide_eq_true_eq] at hp
    have h2 : p.2 = r := Option.some.inj h
    have : p = (k, r) := Prod.ext hp h2
    rw [← this]
    exact hm


theorem overlay_fold_coh {α : Type} (rowKeyOf : α → RowKey) :
    ∀ (rows : List α) (d : List (RowKey × α)),
      (∀ p ∈ d, rowKeyOf p.2 = p.1) →
      ∀ p ∈ rows.foldl (fun d r => pyDictInsert (rowKeyOf r) r d) d, rowKeyOf p.2 = p.1 := by
  intro rows
  induction rows with
  | nil => intro d hd p hp; exact hd p hp
  | cons r rs ih =>
    intro d hd p hp
    rw [List.foldl_cons] at hp
    refine ih _ ?_ p hp
    intro q hq
    rcases mem_pyDictInsert _ _ _ _ hq with h1 | h1
    · exact hd q h1
    · rw [h1]


theorem overlay_fold_keys_mem {α : Type} (rowKeyOf : α → RowKey) :
    ∀ (rows : List α) (d : List (RowKey × α)) (j : RowKey),
      (j ∈ (rows.foldl (fun d r => pyDictInsert (rowKeyOf r) r d) d).map Prod.fst ↔
        j ∈ d.map Prod.fst ∨ j ∈ rows.map rowKeyOf) := by
  intro rows
  induction rows with
  | nil => intro d j; simp
  | cons r rs ih =>
    intro d j
    rw [List.foldl_cons, ih, pyDictInsert_keys]
    by_cases hm : rowKeyOf r ∈ d.map Prod.fst
    · rw [if_pos hm]
      simp only [List.map_cons, List.mem_cons]
      constructor
      · rintro (h | h)
        · exact Or.inl h
        · exact Or.inr (Or.inr h)
      · rintro (h | h | h)
        · exact Or.inl h
        · exact Or.inl (h ▸ hm)
        · exact Or.inr h
    · rw [if_neg hm]
      simp only [List.map_cons, List.mem_cons, List.mem_append, List.mem_singleton]
      tauto


theorem overlay_fold_keys_nodup {α : Type} (rowKeyOf : α → RowKey) :
    ∀ (rows : List α) (d : List (RowKey × α)), (d.map Prod.fst).Nodup →
      ((rows.foldl (fun d r => pyDictInsert (rowKeyOf r) r d) d).map Prod.fst).Nodup := by
  intro rows
  induction rows with
  | nil => intro d h; exact h
  | cons r rs ih =>
    intro d h
    rw [List.foldl_cons]
    exact ih _ (pyDictInsert_keys_nodup _ _ _ h)


theorem pyDictGet_overlay_fold {α : Type} (rowKeyOf : α → RowKey) :
    ∀ (rows : List α) (d : List (RowKey × α)) (k : RowKey),
      pyDictGet (rows.foldl (fun d r => pyDictInsert (rowKeyOf r) r d) d) k =
        (rows.reverse.find? (fun r => decide (rowKeyOf r = k))).or (pyDictGet d k) := by
  intro rows
  induction rows with
  | nil => intro d k; rfl
  | cons r rs ih =>
    intro d k
    rw [List.foldl_cons, ih, List.reverse_cons, findQ_append, option_or_assoc]
    congr 1
    rw [pyDictGet_insert]
    by_cases h : rowKeyOf r = k
    · rw [if_pos h.symm, List.find?_cons]
      simp [h]
    · rw [if_neg (fun hh => h hh.symm), List.find?_cons]
      simp [h]


theorem findQ_filterMap_pyDictGet {α : Type} (rowKeyOf : α → RowKey)
    (D : List (RowKey × α)) (k : RowKey) :
    ∀ ks : List RowKey,
      (∀ j ∈ ks, ∃ r, pyDictGet D j = some r ∧ rowKeyOf r = j) →
      ((ks.filterMap (fun j => pyDictGet D j)).find? (fun r => decide (rowKeyOf r = k))) =
        if k ∈ ks then pyDictGet D k else none := by
  intro ks
  induction ks with
  | nil => intro _; simp
  | cons j js ih =>
    intro hks
    obtain ⟨r, hr, hkey⟩ := hks j (List.mem_cons_self _ _)
    rw [List.filterMap_cons, hr]
    dsimp only
    rw [List.find?_cons]
    by_cases h : rowKeyOf r = k
    · have hjk : j = k := hkey.symm.trans h
      subst hjk
      simp [h, hr]
    · have hjk : j ≠ k := fun e => h (hkey.trans e)
      have hrec := ih (fun x hx => hks x (List.mem_cons_of_mem _ hx))
      have hkj : ¬k = j := fun e => hjk e.symm
      simp [h, hjk, hrec, hkj]


theorem filterMap_pyDictGet_keys {α : Type} (rowKeyOf : α → RowKey)
    (D : List (RowKey × α)) :
    ∀ ks : List RowKey,
      (∀ j ∈ ks, ∃ r, pyDictGet D j = some r ∧ rowKeyOf r = j) →
      (ks.filterMap (fun j => pyDictGet D j)).map rowKeyOf = ks := by
  intro ks
  induction ks with
  | nil => intro _; rfl
  | cons j js ih =>
    intro hks
    obtain ⟨r, hr, hkey⟩ := hks j (List.mem_cons_self _ _)
    rw [List.filterMap_cons, hr]
    dsimp only
    rw [List.map_cons, hkey, ih (fun x hx => hks x (List.mem_cons_of_mem _ hx))]


theorem overlay_step_fst {α : Type} (rowKeyOf : α → RowKey) :
    ∀ (patch : List α) (d : List (RowKey × α)) (n : ℕ),
      (patch.foldl (fun (acc : List (RowKey × α) × ℕ) r =>
          (pyDictInsert (rowKeyOf r) r acc.1,
           acc.2 + (if pyDictMem (rowKeyOf r) acc.1 then 1 else 0))) (d, n)).1 =
        patch.foldl (fun d r => pyDictInsert (rowKeyOf r) r d) d := by
  intro patch
  induction patch with
  | nil => intro d n; rfl
  | cons r rs ih =>
    intro d n
    rw [List.foldl_cons, List.foldl_cons]
    exact ih _ _


theorem overlay_step_snd {α : Type} (rowKeyOf : α → RowKey) :
    ∀ (patch : List α) (d : List (RowKey × α)) (n : ℕ),
      (patch.map rowKeyOf).Nodup →
      (patch.foldl (fun (acc : List (RowKey × α) × ℕ) r =>
          (pyDictInsert (rowKeyOf r) r acc.1,
           acc.2 + (if pyDictMem (rowKeyOf r) acc.1 then 1 else 0))) (d, n)).2 =
        n + (patch.filter (fun r => pyDictMem (rowKeyOf r) d)).length := by
  intro patch
  induction patch with
  | nil => intro d n _; simp
  | cons r rs ih =>
    intro d n hnd
    rw [List.map_cons, List.nodup_cons] at hnd
    obtain ⟨hr, hrs⟩ := hnd
    rw [List.foldl_cons, List.filter_cons, ih _ _ hrs]
    have hfe : rs.filter
        (fun x => pyDictMem (rowKeyOf x) (pyDictInsert (rowKeyOf r) r d)) =
        rs.filter (fun x => pyDictMem (rowKeyOf x) d) := by
      apply List.filter_congr
      intro x hx
      have hne : rowKeyOf x ≠ rowKeyOf r :=
        fun e => hr (e ▸ List.mem_map_of_mem rowKeyOf hx)
      exact pyDictMem_insert_ne _ _ _ _ hne
    rw [hfe]
    by_cases hm : pyDictMem (rowKeyOf r) d = true
    · simp [hm]
      omega
    · simp [hm]


theorem filter_over_map {β γ : Type} (f : β → γ) (p : γ → Bool) :
    ∀ l : List β, (l.map f).filter p = (l.filter (fun b => p (f b))).map f := by
  intro l
  induction l with
  | nil => rfl
  | cons a as ih =>
    rw [List.map_cons, List.filter_cons, List.filter_cons]
    by_cases h : p (f a) = true
    · rw [if_pos h, if_pos h, List.map_cons, ih]
    · rw [if_neg h, if_neg h, ih]


theorem filter_eq_length_nodup {β : Type} [DecidableEq β] (k : β) :
    ∀ l : List β, l.Nodup →
      (l.filter (fun x => decide (x = k))).length = if k ∈ l then 1 else 0 := by
  intro l
  induction l with
  | nil => intro _; simp
  | cons a as ih =>
    intro hnd
    rw [List.nodup_cons] at hnd
    obtain ⟨ha, has⟩ := hnd
    rw [List.filter_cons]
    by_cases h : a = k
    · subst h
      rw [if_pos (by simp), List.length_cons, ih has, if_neg ha,
        if_pos (List.mem_cons_self _ _)]
    · rw [if_neg (by simp [h]), ih has]
      have hne : ¬k = a := fun e => h e.symm
      simp [List.mem_cons, hne]


theorem pySetInsert_nodup {β : Type} [DecidableEq β] (k : β) (s : List β)
    (h : s.Nodup) : (pySetInsert k s).Nodup := by
  unfold pySetInsert
  by_cases hm : k ∈ s
  · rw [if_pos hm]; exact h
  · rw [if_neg hm]
    exact List.Nodup.append h (List.nodup_singleton k)
      (fun x hx hxk => hm ((List.mem_singleton.mp hxk) ▸ hx))


theorem foldl_pySetInsert_nodup {β γ : Type} [DecidableEq γ] (f : β → γ) :
    ∀ (l : List β) (acc : List γ), acc.Nodup →
      (l.foldl (fun ks n => pySetInsert (f n) ks) acc).Nodup := by
  intro l
  induction l with
  | nil => intro acc h; exact h
  | cons a as ih =>
    intro acc h
    rw [List.foldl_cons]
    exact ih _ (pySetInsert_nodup _ _ h)


theorem expected_keys_fold_nodup (names : List String) :
    ∀ (rows : List ExampleRow) (acc : List RowKey), acc.Nodup →
      (rows.foldl (fun keys row =>
        match example_row_key_fields row with
        | none => keys
        | some de => names.foldl (fun ks n => pySetInsert (de.1, de.2, n) ks) keys)
        acc).Nodup := by
  intro rows
  induction rows with
  | nil => intro acc h; exact h
  | cons r rs ih =>
    intro acc h
    rw [List.foldl_cons]
    cases hf : example_row_key_fields r with
    | none => exact ih _ h
    | some de => exact ih _ (foldl_pySetInsert_nodup _ _ _ h)


theorem expected_keys_nodup (base_examples : List ExampleRow)
    (config_candidate_names : List (Option String)) :
    (expected_keys base_examples config_candidate_names).Nodup := by
  unfold expected_keys
  exact expected_keys_fold_nodup _ _ _ List.nodup_nil


/-- C4: `overlay_rows` returns the key-indexed union of the base and patch
rows — the row it carries at key `k` is the last patch row with that key,
else the last base row with that key — the output is strictly sorted by the
composite `(dataset, example_id, candidate_name)` key, and (for
duplicate-free patch keys) the returned count is the number of patch rows
whose key already occurs in the base; on the claim's example (base keyed
`{k1, k2}`, patch keyed `{k2, k3}`) the merged rows are keyed `k1, k2, k3`
in sorted order, `k2` carries the patch value, and the replaced count
is 1. -/
theorem c4_overlay_union_sorted_replaced {α : Type} (rowKeyOf : α → RowKey)
    (base_rows patch_rows : List α)
    (hnd : (patch_rows.map rowKeyOf).Nodup) :
    (((overlay_rows rowKeyOf base_rows patch_rows).1.map rowKeyOf).Pairwise
        (fun x y => rowKeyLt x y = true)) ∧
    (∀ k : RowKey,
      (overlay_rows rowKeyOf base_rows patch_rows).1.find?
          (fun r => decide (rowKeyOf r = k)) =
        (patch_rows.reverse.find? (fun r => decide (rowKeyOf r = k))).or
          (base_rows.reverse.find? (fun r => decide (rowKeyOf r = k)))) ∧
    ((overlay_rows rowKeyOf base_rows patch_rows).2 =
      (patch_rows.filter
        (fun r => decide (rowKeyOf r ∈ base_rows.map rowKeyOf))).length) ∧
    (overlay_rows (fun p : RowKey × ℕ => p.1) c4Base c4Patch =
      ([(c4K1, 1), (c4K2, 20), (c4K3, 30)], 1)) := by
  have h1 : (overlay_rows rowKeyOf base_rows patch_rows).1 =
      (sortLe rowKeyLe
        ((patch_rows.foldl (fun d r => pyDictInsert (rowKeyOf r) r d)
          (base_rows.foldl (fun d r => pyDictInsert (rowKeyOf r) r d) [])).map
            Prod.fst)).filterMap
        (fun k => pyDictGet
          (patch_rows.foldl (fun d r => pyDictInsert (rowKeyOf r) r d)
            (base_rows.foldl (fun d r => pyDictInsert (rowKeyOf r) r d) [])) k) := by
    unfold overlay_rows
    dsimp only
    rw [overlay_step_fst]
  have h2 : (overlay_rows rowKeyOf base_rows patch_rows).2 =
      (patch_rows.filter (fun r => pyDictMem (rowKeyOf r)
        (base_rows.foldl (fun d r => pyDictInsert (rowKeyOf r) r d) []))).length := by
    unfold overlay_rows
    dsimp only
    rw [overlay_step_snd rowKeyOf patch_rows _ 0 hnd, Nat.zero_add]
  have hD0coh : ∀ p ∈ base_rows.foldl (fun d r => pyDictInsert (rowKeyOf r) r d) [],
      rowKeyOf p.2 = p.1 :=
    overlay_fold_coh rowKeyOf base_rows [] (by intro p hp; simp at hp)
  have hDcoh : ∀ p ∈ patch_rows.foldl (fun d r => pyDictInsert (rowKeyOf r) r d)
      (base_rows.foldl (fun d r => pyDictInsert (rowKeyOf r) r d) []),
      rowKeyOf p.2 = p.1 :=
    overlay_fold_coh rowKeyOf patch_rows _ hD0coh
  have hDnd : ((patch_rows.foldl (fun d r => pyDictInsert (rowKeyOf r) r d)
      (base_rows.foldl (fun d r => pyDictInsert (rowKeyOf r) r d) [])).map
        Prod.fst).Nodup :=
    overlay_fold_keys_nodup rowKeyOf patch_rows _
      (overlay_fold_keys_nodup rowKeyOf base_rows [] (by simp))
  have hks : ∀ j ∈ sortLe rowKeyLe
      ((patch_rows.foldl (fun d r => pyDictInsert (rowKeyOf r) r d)
        (base_rows.foldl (fun d r => pyDictInsert (rowKeyOf r) r d) [])).map Prod.fst),
      ∃ r, pyDictGet (patch_rows.foldl (fun d r => pyDictInsert (rowKeyOf r) r d)
        (base_rows.foldl (fun d r => pyDictInsert (rowKeyOf r) r d) [])) j = some r ∧
        rowKeyOf r = j := by
    intro j hj
    have hj2 := ((sortLe_perm rowKeyLe _).mem_iff).mp hj
    obtain ⟨r, hr⟩ := (pyDictGet_mem_keys _ j).mpr hj2
    refine ⟨r, hr, ?_⟩
    exact hDcoh (j, r) (pyDictGet_some_mem _ j r hr)
  refine ⟨?_, ?_, ?_, by decide⟩
  · rw [h1, filterMap_pyDictGet_keys rowKeyOf _ _ hks]
    have hpw := sortLe_pairwise rowKeyLe rowKeyLe_total rowKeyLe_trans
      ((patch_rows.foldl (fun d r => pyDictInsert (rowKeyOf r) r d)
        (base_rows.foldl (fun d r => pyDictInsert (rowKeyOf r) r d) [])).map Prod.fst)
    have hnd2 := ((sortLe_perm rowKeyLe _).nodup_iff).mpr hDnd
    exact List.Pairwise.imp (fun h => rowKeyLt_of_le_of_ne _ _ h.1 h.2) (hpw.and hnd2)
  · intro k
    rw [h1, findQ_filterMap_pyDictGet rowKeyOf _ k _ hks]
    by_cases hk : k ∈ sortLe rowKeyLe
        ((patch_rows.foldl (fun d r => pyDictInsert (rowKeyOf r) r d)
          (base_rows.foldl (fun d r => pyDictInsert (rowKeyOf r) r d) [])).map Prod.fst)
    · rw [if_pos hk, pyDictGet_overlay_fold rowKeyOf patch_rows _ k,
        pyDictGet_overlay_fold rowKeyOf base_rows [] k,
        show pyDictGet ([] : List (RowKey × α)) k = none from rfl, option_or_none]
    · rw [if_neg hk]
      have hk2 : k ∉ (patch_rows.foldl (fun d r => pyDictInsert (rowKeyOf r) r d)
          (base_rows.foldl (fun d r => pyDictInsert (rowKeyOf r) r d) [])).map Prod.fst :=
        fun hm => hk (((sortLe_perm rowKeyLe _).mem_iff).mpr hm)
      have hnp : patch_rows.reverse.find? (fun r => decide (rowKeyOf r = k)) = none := by
        cases hf : patch_rows.reverse.find? (fun r => decide (rowKeyOf r = k)) with
        | none => rfl
        | some r =>
          exfalso
          have hmem := List.mem_of_find?_eq_some hf
          have hpk := List.find?_some hf
          simp only [decide_eq_true_eq] at hpk
          rw [List.mem_reverse] at hmem
          exact hk2 ((overlay_fold_keys_mem rowKeyOf patch_rows _ k).mpr
            (Or.inr (hpk ▸ List.mem_map_of_mem rowKeyOf hmem)))
      have hnb : base_rows.reverse.find? (fun r => decide (rowKeyOf r = k)) = none := by
        cases hf : base_rows.reverse.find? (fun r => decide (rowKeyOf r = k)) with
        | none => rfl
        | some r =>
          exfalso
          have hmem := List.mem_of_find?_eq_some hf
          have hpk := List.find?_some hf
          simp only [decide_eq_true_eq] at hpk
          rw [List.mem_reverse] at hmem
          refine hk2 ((overlay_fold_keys_mem rowKeyOf patch_rows _ k).mpr (Or.inl ?_))
          exact (overlay_fold_keys_mem rowKeyOf base_rows [] k).mpr
            (Or.inr (hpk ▸ List.mem_map_of_mem rowKeyOf hmem))
      rw [hnp, hnb]
      rfl
  · rw [h2]
    have hfc : ∀ x ∈ patch_rows, pyDictMem (rowKeyOf x)
        (base_rows.foldl (fun d r => pyDictInsert (rowKeyOf r) r d) []) =
        decide (rowKeyOf x ∈ base_rows.map rowKeyOf) := by
      intro x _
      cases hb : pyDictMem (rowKeyOf x)
          (base_rows.foldl (fun d r => pyDictInsert (rowKeyOf r) r d) [])
      · symm
        rw [decide_eq_false_iff_not]
        intro hm
        have hmk : rowKeyOf x ∈ (base_rows.foldl
            (fun d r => pyDictInsert (rowKeyOf r) r d) []).map Prod.fst :=
          (overlay_fold_keys_mem rowKeyOf base_rows [] _).mpr (Or.inr hm)
        have hcontra := (pyDictMem_iff _ _).mpr hmk
        rw [hb] at hcontra
        exact absurd hcontra (by decide)
      · symm
        rw [decide_eq_true_eq]
        have hm := (pyDictMem_iff _ _).mp hb
        rcases (overlay_fold_keys_mem rowKeyOf base_rows [] _).mp hm with h0 | hmem
        · simp at h0
        · exact hmem
    rw [List.filter_congr hfc]


/-- Witness for C4: the claim's concrete example, with the duplicate-free
patch-keys hypothesis discharged by evaluation. -/
theorem c4_witness :
    ((c4Patch.map (fun p : RowKey × ℕ => p.1)).Nodup) ∧
    ((((overlay_rows (fun p : RowKey × ℕ => p.1) c4Base c4Patch).1.map
          (fun p : RowKey × ℕ => p.1)).Pairwise
        (fun x y => rowKeyLt x y = true)) ∧
      (∀ k : RowKey,
        (overlay_rows (fun p : RowKey × ℕ => p.1) c4Base c4Patch).1.find?
            (fun r => decide (r.1 = k)) =
          (c4Patch.reverse.find? (fun r => decide (r.1 = k))).or
            (c4Base.reverse.find? (fun r => decide (r.1 = k)))) ∧
      ((overlay_rows (fun p : RowKey × ℕ => p.1) c4Base c4Patch).2 =
        (c4Patch.filter
          (fun r => decide (r.1 ∈ c4Base.map (fun p : RowKey × ℕ => p.1)))).length) ∧
      (overlay_rows (fun p : RowKey × ℕ => p.1) c4Base c4Patch =
        ([(c4K1, 1), (c4K2, 20), (c4K3, 30)], 1))) :=
  ⟨by decide,
   c4_overlay_union_sorted_replaced (fun p : RowKey × ℕ => p.1) c4Base c4Patch (by decide)⟩


theorem missing_items_other_stage (keys : List RowKey) (stage msg s2 : String)
    (h : s2 ≠ stage) (k : RowKey) :
    (missing_failure_items keys stage msg).filter
      (fun it => decide (it.stage = s2 ∧
        (it.dataset, it.example_id, it.candidate_name) = k)) = [] := by
  unfold missing_failure_items
  apply List.filter_eq_nil_iff.mpr
  intro it hit
  obtain ⟨k3, hk3, rfl⟩ := List.mem_map.mp hit
  intro hc
  rw [decide_eq_true_eq] at hc
  exact h hc.1.symm


theorem missing_items_count (expected pairs : List RowKey) (hexp : expected.Nodup)
    (stage msg : String) (k : RowKey) :
    ((missing_failure_items
        (sortLe rowKeyLe (expected.filter (fun j => !(decide (j ∈ pairs)))))
        stage msg).filter
      (fun it => decide (it.stage = stage ∧
        (it.dataset, it.example_id, it.candidate_name) = k))).length =
      if k ∈ expected ∧ k ∉ pairs then 1 else 0 := by
  unfold missing_failure_items
  rw [filter_over_map, List.length_map]
  have hcongr : ∀ j ∈ sortLe rowKeyLe (expected.filter (fun j => !(decide (j ∈ pairs)))),
      (decide (stage = stage ∧ (j.1, j.2.1, j.2.2) = k) : Bool) = decide (j = k) := by
    intro j _
    rw [decide_eq_decide]
    constructor
    · rintro ⟨_, hk3⟩
      rw [← hk3]
    · intro hjk
      subst hjk
      exact ⟨rfl, rfl⟩
  rw [List.filter_congr hcongr]
  have hnd : (sortLe rowKeyLe (expected.filter (fun j => !(decide (j ∈ pairs))))).Nodup :=
    ((sortLe_perm rowKeyLe _).nodup_iff).mpr (hexp.filter _)
  rw [filter_eq_length_nodup k _ hnd]
  have hmem : k ∈ sortLe rowKeyLe (expected.filter (fun j => !(decide (j ∈ pairs)))) ↔
      (k ∈ expected ∧ k ∉ pairs) := by
    rw [(sortLe_perm rowKeyLe _).mem_iff, List.mem_filter]
    simp
  simp only [hmem]


theorem missing_block_empty_iff (expected pairs : List RowKey) (stage msg : String) :
    missing_failure_items (sortLe rowKeyLe (expected.filter
      (fun j => !(decide (j ∈ pairs))))) stage msg = [] ↔
    ∀ j ∈ expected, j ∈ pairs := by
  unfold missing_failure_items
  rw [List.map_eq_nil_iff]
  constructor
  · intro hs j hj
    have hperm := sortLe_perm rowKeyLe (expected.filter (fun j => !(decide (j ∈ pairs))))
    rw [hs] at hperm
    have hfilt : expected.filter (fun j => !(decide (j ∈ pairs))) = [] :=
      List.eq_nil_of_length_eq_zero hperm.length_eq.symm
    by_contra hnp
    have hmem : j ∈ expected.filter (fun j => !(decide (j ∈ pairs))) :=
      List.mem_filter.mpr ⟨hj, by simp [hnp]⟩
    rw [hfilt] at hmem
    simp at hmem
  · intro hall
    have hfilt : expected.filter (fun j => !(decide (j ∈ pairs))) = [] := by
      apply List.filter_eq_nil_iff.mpr
      intro j hj
      simp [hall j hj]
    rw [hfilt]
    rfl


/-- C5: after the merge overlays a backfill run on a base run, every
expected pair (base example set crossed with the base config's candidate
names) still lacking a response row yields exactly one synthetic failure
item with stage `response_missing_after_merge`, every expected pair lacking
a judgment row yields exactly one with stage `judge_missing_after_merge`,
the merged `run_status` is `degraded` exactly when such a gap exists (else
`completed`), and the merged summary aggregates are a function of the
merged row streams alone (recomputed, not patched incrementally). -/
theorem c5_merge_missing_accounting
    (ex : List ExampleRow) (cn : List (Option String))
    (br pr : List MergeResponseRow) (bj pj : List MergeJudgmentRow)
    (ex2 : List ExampleRow) (cn2 : List (Option String))
    (br2 pr2 : List MergeResponseRow) (bj2 pj2 : List MergeJudgmentRow)
    (hr : (merge_run_outputs ex cn br pr bj pj).merged_responses =
      (merge_run_outputs ex2 cn2 br2 pr2 bj2 pj2).merged_responses)
    (hj : (merge_run_outputs ex cn br pr bj pj).merged_judgments =
      (merge_run_outputs ex2 cn2 br2 pr2 bj2 pj2).merged_judgments) :
    (∀ k : RowKey,
      ((merge_run_outputs ex cn br pr bj pj).failed_items.filter
        (fun it => decide (it.stage = "response_missing_after_merge" ∧
          (it.dataset, it.example_id, it.candidate_name) = k))).length =
      if k ∈ expected_keys ex cn ∧
          k ∉ (merge_run_outputs ex cn br pr bj pj).merged_responses.map responseRowKey
        then 1 else 0) ∧
    (∀ k : RowKey,
      ((merge_run_outputs ex cn br pr bj pj).failed_items.filter
        (fun it => decide (it.stage = "judge_missing_after_merge" ∧
          (it.dataset, it.example_id, it.candidate_name) = k))).length =
      if k ∈ expected_keys ex cn ∧
          k ∉ (merge_run_outputs ex cn br pr bj pj).merged_judgments.map judgmentRowKey
        then 1 else 0) ∧
    ((merge_run_outputs ex cn br pr bj pj).run_status = "degraded" ↔
      ∃ k ∈ expected_keys ex cn,
        k ∉ (merge_run_outputs ex cn br pr bj pj).merged_responses.map responseRowKey ∨
        k ∉ (merge_run_outputs ex cn br pr bj pj).merged_judgments.map judgmentRowKey) ∧
    ((merge_run_outputs ex cn br pr bj pj).run_status = "degraded" ∨
      (merge_run_outputs ex cn br pr bj pj).run_status = "completed") ∧
    ((merge_run_outputs ex cn br pr bj pj).summary =
      (merge_run_outputs ex2 cn2 br2 pr2 bj2 pj2).summary) := by
  have hresp : (merge_run_outputs ex cn br pr bj pj).merged_responses =
      (overlay_rows responseRowKey br pr).1 := rfl
  have hjudg : (merge_run_outputs ex cn br pr bj pj).merged_judgments =
      (overlay_rows judgmentRowKey bj pj).1 := rfl
  have hfail : (merge_run_outputs ex cn br pr bj pj).failed_items =
      missing_failure_items (sortLe rowKeyLe ((expected_keys ex cn).filter
          (fun k => !(decide (k ∈ (overlay_rows responseRowKey br pr).1.map
            responseRowKey)))))
        "response_missing_after_merge" "Missing response row after merge overlay." ++
      missing_failure_items (sortLe rowKeyLe ((expected_keys ex cn).filter
          (fun k => !(decide (k ∈ (overlay_rows judgmentRowKey bj pj).1.map
            judgmentRowKey)))))
        "judge_missing_after_merge" "Missing judgment row after merge overlay." := rfl
  have hstat : (merge_run_outputs ex cn br pr bj pj).run_status =
      if (merge_run_outputs ex cn br pr bj pj).failed_items = []
        then "completed" else "degraded" := rfl
  have hiff1 := missing_block_empty_iff (expected_keys ex cn)
    ((overlay_rows responseRowKey br pr).1.map responseRowKey)
    "response_missing_after_merge" "Missing response row after merge overlay."
  have hiff2 := missing_block_empty_iff (expected_keys ex cn)
    ((overlay_rows judgmentRowKey bj pj).1.map judgmentRowKey)
    "judge_missing_after_merge" "Missing judgment row after merge overlay."
  refine ⟨?_, ?_, ?_, ?_, ?_⟩
  · intro k
    rw [hresp, hfail, List.filter_append,
      missing_items_other_stage _ "judge_missing_after_merge"
        "Missing judgment row after merge overlay." "response_missing_after_merge"
        (by decide) k,
      List.append_nil,
      missing_items_count (expected_keys ex cn)
        ((overlay_rows responseRowKey br pr).1.map responseRowKey)
        (expected_keys_nodup ex cn) _ _ k]
  · intro k
    rw [hjudg, hfail, List.filter_append,
      missing_items_other_stage _ "response_missing_after_merge"
        "Missing response row after merge overlay." "judge_missing_after_merge"
        (by decide) k,
      List.nil_append,
      missing_items_count (expected_keys ex cn)
        ((overlay_rows judgmentRowKey bj pj).1.map judgmentRowKey)
        (expected_keys_nodup ex cn) _ _ k]
  · rw [hresp, hjudg, hstat, hfail]
    by_cases hp1 : ∀ j ∈ expected_keys ex cn,
        j ∈ (overlay_rows responseRowKey br pr).1.map responseRowKey
    · by_cases hp2 : ∀ j ∈ expected_keys ex cn,
          j ∈ (overlay_rows judgmentRowKey bj pj).1.map judgmentRowKey
      · rw [hiff1.mpr hp1, hiff2.mpr hp2, List.nil_append, if_pos rfl]
        refine iff_of_false (by decide) ?_
        rintro ⟨k, hk, hor⟩
        rcases hor with h | h
        · exact h (hp1 k hk)
        · exact h (hp2 k hk)
      · rw [hiff1.mpr hp1, List.nil_append]
        rw [if_neg (fun hc => hp2 (hiff2.mp hc))]
        push_neg at hp2
        obtain ⟨j, hje, hjn⟩ := hp2
        exact iff_of_true rfl ⟨j, hje, Or.inr hjn⟩
    · rw [if_neg (fun hc => hp1 (hiff1.mp (List.append_eq_nil.mp hc).1))]
      push_neg at hp1
      obtain ⟨j, hje, hjn⟩ := hp1
      exact iff_of_true rfl ⟨j, hje, Or.inl hjn⟩
  · rw [hstat]
    exact Or.symm (ite_eq_or_eq _ _ _)
  · calc (merge_run_outputs ex cn br pr bj pj).summary
        = build_summary (merge_run_outputs ex cn br pr bj pj).merged_responses
            (merge_run_outputs ex cn br pr bj pj).merged_judgments := rfl
      _ = build_summary (merge_run_outputs ex2 cn2 br2 pr2 bj2 pj2).merged_responses
            (merge_run_outputs ex2 cn2 br2 pr2 bj2 pj2).merged_judgments := by
          rw [hr, hj]
      _ = (merge_run_outputs ex2 cn2 br2 pr2 bj2 pj2).summary := rfl


/-- Witness for C5: the merge-extensionality hypotheses hold trivially for
a concrete run merged with an empty backfill, and the theorem applies. -/
theorem c5_witness :
    ((merge_run_outputs c5Examples c5Names c5BaseResponses [] c5BaseJudgments []).merged_responses =
      (merge_run_outputs c5Examples c5Names c5BaseResponses [] c5BaseJudgments []).merged_responses) ∧
    ((merge_run_outputs c5Examples c5Names c5BaseResponses [] c5BaseJudgments []).merged_judgments =
      (merge_run_outputs c5Examples c5Names c5BaseResponses [] c5BaseJudgments []).merged_judgments) ∧
    ((∀ k : RowKey,
      ((merge_run_outputs c5Examples c5Names c5BaseResponses [] c5BaseJudgments []).failed_items.filter
        (fun it => decide (it.stage = "response_missing_after_merge" ∧
          (it.dataset, it.example_id, it.candidate_name) = k))).length =
      if k ∈ expected_keys c5Examples c5Names ∧
          k ∉ (merge_run_outputs c5Examples c5Names c5BaseResponses [] c5BaseJudgments
            []).merged_responses.map responseRowKey
        then 1 else 0) ∧
    (∀ k : RowKey,
      ((merge_run_outputs c5Examples c5Names c5BaseResponses [] c5BaseJudgments []).failed_items.filter
        (fun it => decide (it.stage = "judge_missing_after_merge" ∧
          (it.dataset, it.example_id, it.candidate_name) = k))).length =
      if k ∈ expected_keys c5Examples c5Names ∧
          k ∉ (merge_run_outputs c5Examples c5Names c5BaseResponses [] c5BaseJudgments
            []).merged_judgments.map judgmentRowKey
        then 1 else 0) ∧
    ((merge_run_outputs c5Examples c5Names c5BaseResponses [] c5BaseJudgments []).run_status =
        "degraded" ↔
      ∃ k ∈ expected_keys c5Examples c5Names,
        k ∉ (merge_run_outputs c5Examples c5Names c5BaseResponses [] c5BaseJudgments
          []).merged_responses.map responseRowKey ∨
        k ∉ (merge_run_outputs c5Examples c5Names c5BaseResponses [] c5BaseJudgments
          []).merged_judgments.map judgmentRowKey) ∧
    ((merge_run_outputs c5Examples c5Names c5BaseResponses [] c5BaseJudgments []).run_status =
        "degraded" ∨
      (merge_run_outputs c5Examples c5Names c5BaseResponses [] c5BaseJudgments []).run_status =
        "completed") ∧
    ((merge_run_outputs c5Examples c5Names c5BaseResponses [] c5BaseJudgments []).summary =
      (merge_run_outputs c5Examples c5Names c5BaseResponses [] c5BaseJudgments []).summary)) :=
  ⟨rfl, rfl,
   c5_merge_missing_accounting c5Examples c5Names c5BaseResponses [] c5BaseJudgments []
     c5Examples c5Names c5BaseResponses [] c5BaseJudgments [] rfl rfl⟩
